import Mathlib

/-!
Verification development for the EduCore academic records manager.

The definitions below are a shallow embedding of the FastAPI backend
(`backend/main.py` together with the request validation in
`backend/schemas.py` and the ORM constraints in `backend/models.py`).
Python floats are modelled as rationals; Python's `round(x, 2)` is
round-half-to-even on the scaled value.  Database tables are lists of
records; the SQLAlchemy session is modelled by explicit state passing.
Row lookups by a uniquely-indexed column are modelled as filters over
that column, which coincides with single-row deletion/mutation because
the storage layer enforces uniqueness of `student_code` (students) and
of the pair `(student_code, subject_code)` (grades).  Timestamp columns
(`created_at` / `updated_at`) carry no business logic and are omitted.
-/

namespace EduCore

/-- A row of the `courses` table (`backend/models.py`, class `Course`). -/
structure Course where
  id : Nat
  code : String
  name : String
  deriving DecidableEq

/-- A row of the `students` table (`backend/models.py`, class `Student`);
`gwa` has column default 0.0. -/
structure Student where
  id : Nat
  student_code : String
  name : String
  course_code : String
  gwa : ℚ
  deriving DecidableEq

/-- A row of the `grades` table (`backend/models.py`, class `Grade`). -/
structure Grade where
  id : Nat
  student_code : String
  subject_code : String
  subject_name : String
  grade : ℚ
  deriving DecidableEq

/-- The database state: the three tables relevant to the grade/GWA core,
plus autoincrement counters for the two tables the API inserts into. -/
structure DB where
  courses : List Course
  students : List Student
  grades : List Grade
  nextStudentId : Nat
  nextGradeId : Nat
  deriving DecidableEq

/-- An HTTP error response: `HTTPException(status_code=..., detail=...)`
in `backend/main.py`, or a 422 validation error raised by pydantic.
The spec's abstract error kinds correspond to concrete (status, detail)
pairs: Conflict = (400, "Student code already exists"), InvalidReference
= (400, "Course not found"), NotFound = (404, "Student not found"),
InvalidInput = a 400/422 with the grade-range message. -/
structure HErr where
  status : Nat
  detail : String
  deriving DecidableEq

/-- Python's `round` to an integer: round-half-to-even (banker's
rounding), as used by `round(float(avg_grade), 2)` in
`update_student_gwa` and by `round(v, 2)` in the `GradeCreate`
validator. -/
def roundHalfEven (q : ℚ) : ℤ :=
  if Int.fract q < 1/2 then ⌊q⌋
  else if 1/2 < Int.fract q then ⌊q⌋ + 1
  else if ⌊q⌋ % 2 = 0 then ⌊q⌋ else ⌊q⌋ + 1

/-- Python's `round(x, 2)`: scale by 100, round half-to-even, unscale. -/
def round2 (q : ℚ) : ℚ := (roundHalfEven (q * 100) : ℚ) / 100

/-- `db.query(Student).filter(Student.student_code == code).first()`:
first student row with the given code. -/
def findStudent : List Student → String → Option Student
  | [], _ => none
  | s :: ss, code => if s.student_code = code then some s else findStudent ss code

/-- `db.query(Course).filter(Course.code == code).first()`. -/
def findCourse : List Course → String → Option Course
  | [], _ => none
  | c :: cs, code => if c.code = code then some c else findCourse cs code

/-- `db.query(Grade).filter(Grade.student_code == sc,
Grade.subject_code == subc).first()`. -/
def findGradeRow : List Grade → String → String → Option Grade
  | [], _, _ => none
  | g :: gs, sc, subc =>
    if g.student_code = sc ∧ g.subject_code = subc then some g
    else findGradeRow gs sc subc

/-- `db.query(Grade).filter(Grade.student_code == sc)`: all grade rows
of one student. -/
def gradesOf : List Grade → String → List Grade
  | [], _ => []
  | g :: gs, sc => if g.student_code = sc then g :: gradesOf gs sc else gradesOf gs sc

/-- The grade rows stored for one (student_code, subject_code) pair —
the observation the `uq_student_subject` constraint and the upsert are
about. -/
def pairRows : List Grade → String → String → List Grade
  | [], _, _ => []
  | g :: gs, sc, subc =>
    if g.student_code = sc ∧ g.subject_code = subc then g :: pairRows gs sc subc
    else pairRows gs sc subc

/-- `db.query(Grade).filter(Grade.student_code == sc).delete()`. -/
def removeGradesOf : List Grade → String → List Grade
  | [], _ => []
  | g :: gs, sc => if g.student_code = sc then removeGradesOf gs sc else g :: removeGradesOf gs sc

/-- `db.delete(student)` for the student row with the (unique) code. -/
def removeStudent : List Student → String → List Student
  | [], _ => []
  | s :: ss, sc => if s.student_code = sc then removeStudent ss sc else s :: removeStudent ss sc

/-- `student.course_code = new_course_code` on the row with the
(unique) code. -/
def setCourse : List Student → String → String → List Student
  | [], _, _ => []
  | s :: ss, sc, cc =>
    (if s.student_code = sc then { s with course_code := cc } else s) :: setCourse ss sc cc

/-- `student.gwa = value` on the row with the (unique) code. -/
def setGwa : List Student → String → ℚ → List Student
  | [], _, _ => []
  | s :: ss, sc, q =>
    (if s.student_code = sc then { s with gwa := q } else s) :: setGwa ss sc q

/-- In-place mutation of one fetched grade row, identified by its
primary key. -/
def replaceGradeRow : List Grade → Nat → Grade → List Grade
  | [], _, _ => []
  | g :: gs, i, g1 => (if g.id = i then g1 else g) :: replaceGradeRow gs i g1

/-- `SELECT AVG(grade) ... WHERE student_code = ...`: `none` (SQL NULL)
when the student has no grade rows, otherwise the arithmetic mean. -/
def avgGrade (gs : List Grade) : Option ℚ :=
  match gs with
  | [] => none
  | _ :: _ => some ((gs.map Grade.grade).sum / gs.length)

/-- The value written by `update_student_gwa`:
`round(float(avg_grade), 2) if avg_grade else 0.0` — `avg_grade` is
falsy when the SQL average is NULL (no grades) or 0.0. -/
def computedGwa (gs : List Grade) (sc : String) : ℚ :=
  match avgGrade (gradesOf gs sc) with
  | none => 0
  | some a => if a = 0 then 0 else round2 a

/-- `update_student_gwa` (`backend/main.py` lines 324-334): recompute
the student's average and store it in `Student.gwa`. -/
def update_student_gwa (db : DB) (sc : String) : DB :=
  match findStudent db.students sc with
  | none => db
  | some _ => { db with students := setGwa db.students sc (computedGwa db.grades sc) }

/-- `add_grade` (`backend/main.py` lines 261-303): the POST /api/grades
handler body.  Checks student existence, the [1.0, 5.0] range, then
upserts the grade row for (student_code, subject_code) and triggers
`update_student_gwa` before returning. -/
def add_grade (db : DB) (sc subc subn : String) (v : ℚ) :
    Except HErr (DB × Grade) :=
  match findStudent db.students sc with
  | none => .error ⟨404, "Student not found"⟩
  | some _ =>
    if v < 1 ∨ 5 < v then .error ⟨400, "Grade must be between 1.0 and 5.0"⟩
    else
      match findGradeRow db.grades sc subc with
      | some g0 =>
        let g1 : Grade := { g0 with grade := v, subject_name := subn }
        let db1 : DB := { db with grades := replaceGradeRow db.grades g0.id g1 }
        .ok (update_student_gwa db1 sc, g1)
      | none =>
        let g1 : Grade := ⟨db.nextGradeId, sc, subc, subn, v⟩
        let db1 : DB := { db with grades := db.grades ++ [g1],
                                  nextGradeId := db.nextGradeId + 1 }
        .ok (update_student_gwa db1 sc, g1)

/-- The pydantic `GradeCreate` validation (`backend/schemas.py` lines
50-60): rejects a grade outside [1.0, 5.0] with a 422 validation
error, and rounds an accepted value to 2 decimal places. -/
def gradeCreateValidate (v : ℚ) : Except HErr ℚ :=
  if v < 1 ∨ 5 < v then .error ⟨422, "Grade must be between 1.0 and 5.0"⟩
  else .ok (round2 v)

/-- The spec's `upsertGrade`: the full POST /api/grades pipeline —
`GradeCreate` request validation followed by the `add_grade` handler. -/
def upsertGrade (db : DB) (sc subc subn : String) (v : ℚ) :
    Except HErr (DB × Grade) :=
  match gradeCreateValidate v with
  | .error e => .error e
  | .ok v2 => add_grade db sc subc subn v2

/-- `add_student` (`backend/main.py` lines 164-182): POST /api/students.
Duplicate-code check, course existence check, then insert with the
`gwa` column default 0.0. -/
def add_student (db : DB) (sc name cc : String) : Except HErr (DB × Student) :=
  match findStudent db.students sc with
  | some _ => .error ⟨400, "Student code already exists"⟩
  | none =>
    match findCourse db.courses cc with
    | none => .error ⟨400, "Course not found"⟩
    | some _ =>
      let st : Student := ⟨db.nextStudentId, sc, name, cc, 0⟩
      .ok ({ db with students := db.students ++ [st],
                     nextStudentId := db.nextStudentId + 1 }, st)

/-- `update_student` (`backend/main.py` lines 193-206): PUT
/api/students/{code}; only mutates `course_code`. -/
def update_student (db : DB) (sc cc : String) : Except HErr (DB × Student) :=
  match findStudent db.students sc with
  | none => .error ⟨404, "Student not found"⟩
  | some st =>
    match findCourse db.courses cc with
    | none => .error ⟨400, "Course not found"⟩
    | some _ =>
      .ok ({ db with students := setCourse db.students sc cc },
           { st with course_code := cc })

/-- `delete_student` (`backend/main.py` lines 209-219): DELETE
/api/students/{code}; deletes the student's grade rows, then the
student row, in one transaction. -/
def delete_student (db : DB) (sc : String) : Except HErr DB :=
  match findStudent db.students sc with
  | none => .error ⟨404, "Student not found"⟩
  | some _ =>
    .ok { db with grades := removeGradesOf db.grades sc,
                  students := removeStudent db.students sc }

/-- `get_grade_description` (`backend/main.py` lines 337-349, identical
to `GradeSystem.get_description` in `models.py`). -/
def get_grade_description (grade : ℚ) : String :=
  if grade = 0 then "Not yet graded"
  else if grade = 1 then "Excellent"
  else if grade ≤ 1.75 then "Very Good"
  else if grade ≤ 2.5 then "Good"
  else if grade ≤ 3 then "Satisfactory"
  else "Failed"

/-- The two decimal digits of `n % 100`, as printed by `f"{x:.2f}"`. -/
def twoDigits (m : Nat) : String :=
  String.mk [Nat.digitChar (m / 10 % 10), Nat.digitChar (m % 10)]

/-- `f"{grade:.2f}"` on a non-negative value: round to 2 decimal places
and print with exactly two digits after the point. -/
def formatTwoDec (q : ℚ) : String :=
  let n := (roundHalfEven (q * 100)).toNat
  toString (n / 100) ++ "." ++ twoDigits (n % 100)

/-- `format_grade` (`backend/main.py` lines 352-355, identical to
`GradeSystem.format_grade` in `models.py`). -/
def format_grade (q : ℚ) : String :=
  if q = 0 then "N/A" else formatTwoDec q

/-- One row of the GET /api/grades/{code} response. -/
structure GradeRow where
  id : Nat
  student_code : String
  subject_code : String
  subject_name : String
  grade : ℚ
  description : String
  formatted_grade : String
  deriving DecidableEq

/-- Insertion step for `ORDER BY subject_code`. -/
def insertBySubject (g : Grade) : List Grade → List Grade
  | [] => [g]
  | h :: t =>
    if g.subject_code < h.subject_code ∨ g.subject_code = h.subject_code then g :: h :: t
    else h :: insertBySubject g t

/-- `ORDER BY subject_code` on a student's grade rows. -/
def sortBySubject : List Grade → List Grade
  | [] => []
  | g :: gs => insertBySubject g (sortBySubject gs)

/-- `get_student_grades` (`backend/main.py` lines 236-258): 404 when the
student is absent, otherwise the student's grades ordered by
subject_code, each annotated by the classifier. -/
def get_student_grades (db : DB) (sc : String) : Except HErr (List GradeRow) :=
  match findStudent db.students sc with
  | none => .error ⟨404, "Student not found"⟩
  | some _ =>
    .ok ((sortBySubject (gradesOf db.grades sc)).map (fun g =>
      ⟨g.id, g.student_code, g.subject_code, g.subject_name, g.grade,
       get_grade_description g.grade, format_grade g.grade⟩))

/-- One row of the GET /api/gwa-report response. -/
structure ReportRow where
  student_code : String
  name : String
  course_code : String
  gwa : ℚ
  description : String
  formatted_gwa : String
  deriving DecidableEq

/-- `get_gwa_report` (`backend/main.py` lines 306-321): every student's
stored gwa annotated by the same classifier (the report's ORDER BY
name does not affect row contents and is left unmodelled). -/
def get_gwa_report (db : DB) : List ReportRow :=
  db.students.map (fun s =>
    ⟨s.student_code, s.name, s.course_code, s.gwa,
     get_grade_description s.gwa, format_grade s.gwa⟩)

/-- The state the caller observes after an operation: the new state on
success, the unchanged input state when an HTTPException is raised
before any write is committed. -/
def stateAfter {α : Type} (db : DB) : Except HErr (DB × α) → DB
  | .ok (db', _) => db'
  | .error _ => db

/-- `stateAfter` for `delete_student`'s result shape. -/
def stateAfterDelete (db : DB) : Except HErr DB → DB
  | .ok db' => db'
  | .error _ => db

/-- Run a sequence of POST /api/grades requests for one
(student, subject) pair; a rejected request leaves the state unchanged. -/
def applyGradeSeq (db : DB) (sc subc subn : String) : List ℚ → DB
  | [] => db
  | v :: vs => applyGradeSeq (stateAfter db (add_grade db sc subc subn v)) sc subc subn vs

/-- Storage-level well-formedness, enforced by the schema in
`backend/models.py`: unique index on `students.student_code`, primary
keys below the autoincrement counter and pairwise distinct, and the
`uq_student_subject` unique constraint on (student_code, subject_code). -/
def WF (db : DB) : Prop :=
  db.students.Pairwise (fun a b => a.student_code ≠ b.student_code) ∧
  db.grades.Pairwise (fun a b => a.id ≠ b.id) ∧
  (∀ g ∈ db.grades, g.id < db.nextGradeId) ∧
  db.grades.Pairwise (fun a b =>
    ¬(a.student_code = b.student_code ∧ a.subject_code = b.subject_code))

/-- The spec's derived-state invariant for one student: `gwa` is the
2-decimal rounding of the mean of the student's grades, or 0.0 when
the student has none. -/
def studentGwaOk (gs : List Grade) (s : Student) : Prop :=
  (gradesOf gs s.student_code = [] ∧ s.gwa = 0) ∨
  (gradesOf gs s.student_code ≠ [] ∧
    s.gwa = round2 (((gradesOf gs s.student_code).map Grade.grade).sum /
      (gradesOf gs s.student_code).length))

/-- The spec's derived-state invariant for every student in the
registry. -/
def gwaInvariant (db : DB) : Prop := ∀ s ∈ db.students, studentGwaOk db.grades s

/-- Modelled from the spec: "rounds to 2 decimal places using standard
half-up rounding" — the conventional round-half-up to 2 decimals the
spec prescribes, kept for comparison with the source's `round2`. -/
def roundHalfUp2 (q : ℚ) : ℚ := (⌊q * 100 + 1/2⌋ : ℚ) / 100

/-- A small concrete state for concrete checks: the seeded BSIT course
and one registered, ungraded student. -/
def dbS : DB :=
  { courses := [⟨1, "BSIT", "Bachelor of Science in Information Technology"⟩],
    students := [⟨1, "24-001", "Ana Cruz", "BSIT", 0⟩],
    grades := [],
    nextStudentId := 2,
    nextGradeId := 1 }

/-- `dbS` after one upsert of grade 1.5 in CS 131 (gwa refreshed to 1.5). -/
def dbS1 : DB :=
  { courses := [⟨1, "BSIT", "Bachelor of Science in Information Technology"⟩],
    students := [⟨1, "24-001", "Ana Cruz", "BSIT", 3/2⟩],
    grades := [⟨1, "24-001", "CS 131", "Computer Programming 1", 3/2⟩],
    nextStudentId := 2,
    nextGradeId := 2 }

/-- A concrete state where the student already holds one grade of 1.0. -/
def dbG : DB :=
  { courses := [⟨1, "BSIT", "Bachelor of Science in Information Technology"⟩],
    students := [⟨1, "24-001", "Ana Cruz", "BSIT", 1⟩],
    grades := [⟨1, "24-001", "CS 131", "Computer Programming 1", 1⟩],
    nextStudentId := 2,
    nextGradeId := 2 }

/-- `dbG` after upserting grade 1.25 in MATH 111: the mean is 1.125 and
the stored gwa becomes 1.12 (Python banker's rounding). -/
def dbG1 : DB :=
  { courses := [⟨1, "BSIT", "Bachelor of Science in Information Technology"⟩],
    students := [⟨1, "24-001", "Ana Cruz", "BSIT", 28/25⟩],
    grades := [⟨1, "24-001", "CS 131", "Computer Programming 1", 1⟩,
               ⟨2, "24-001", "MATH 111", "Mathematics in the Modern World", 5/4⟩],
    nextStudentId := 2,
    nextGradeId := 3 }

/-- `dbS` after upserting the submitted value 1.554, which the
`GradeCreate` validator rounds to 1.55 before storage. -/
def dbS2 : DB :=
  { courses := [⟨1, "BSIT", "Bachelor of Science in Information Technology"⟩],
    students := [⟨1, "24-001", "Ana Cruz", "BSIT", 31/20⟩],
    grades := [⟨1, "24-001", "CS 131", "Computer Programming 1", 31/20⟩],
    nextStudentId := 2,
    nextGradeId := 2 }

/-! ### Rounding lemmas -/

lemma roundHalfEven_dist (q : ℚ) : |(roundHalfEven q : ℚ) - q| ≤ 1/2 := by
  have hfl : (⌊q⌋ : ℚ) = q - Int.fract q := by
    have := Int.self_sub_floor q
    linarith
  have h0 : 0 ≤ Int.fract q := Int.fract_nonneg q
  have h1 : Int.fract q < 1 := Int.fract_lt_one q
  unfold roundHalfEven
  split_ifs with ha hb hc <;>
    [skip; skip; skip; skip] <;>
    rw [abs_le] <;> push_cast <;> rw [hfl] <;> constructor <;> linarith

lemma roundHalfEven_tie_even (q : ℚ)
    (h : |(roundHalfEven q : ℚ) - q| = 1/2) : roundHalfEven q % 2 = 0 := by
  have hfl : (⌊q⌋ : ℚ) = q - Int.fract q := by
    have := Int.self_sub_floor q
    linarith
  have h0 : 0 ≤ Int.fract q := Int.fract_nonneg q
  have h1 : Int.fract q < 1 := Int.fract_lt_one q
  unfold roundHalfEven at h ⊢
  split_ifs at h ⊢ with ha hb hc
  · exfalso
    rw [abs_eq (by norm_num)] at h
    rcases h with h | h <;> rw [hfl] at h <;> linarith
  · exfalso
    rw [abs_eq (by norm_num)] at h
    rcases h with h | h <;> push_cast at h <;> rw [hfl] at h <;> linarith
  · exact hc
  · omega

lemma roundHalfEven_eq_of_lo (q : ℚ) (f : ℤ)
    (h1 : (f : ℚ) ≤ q) (h2 : q < (f : ℚ) + 1/2) : roundHalfEven q = f := by
  have hfloor : ⌊q⌋ = f := Int.floor_eq_iff.2 ⟨h1, by push_cast; linarith⟩
  have hfr : Int.fract q < 1/2 := by
    have := Int.self_sub_floor q
    rw [hfloor] at this
    linarith
  unfold roundHalfEven
  rw [if_pos hfr, hfloor]

lemma roundHalfEven_eq_of_hi (q : ℚ) (f : ℤ)
    (h1 : (f : ℚ) + 1/2 < q) (h2 : q < (f : ℚ) + 1) : roundHalfEven q = f + 1 := by
  have hfloor : ⌊q⌋ = f := Int.floor_eq_iff.2 ⟨by linarith, by push_cast; linarith⟩
  have hfr : 1/2 < Int.fract q := by
    have := Int.self_sub_floor q
    rw [hfloor] at this
    linarith
  unfold roundHalfEven
  rw [if_neg (by linarith), if_pos hfr, hfloor]

lemma roundHalfEven_eq_of_tie (q : ℚ) (f : ℤ) (h : q = (f : ℚ) + 1/2) :
    roundHalfEven q = if f % 2 = 0 then f else f + 1 := by
  have hfloor : ⌊q⌋ = f := Int.floor_eq_iff.2 ⟨by rw [h]; linarith, by rw [h]; push_cast; linarith⟩
  have hfr : Int.fract q = 1/2 := by
    have := Int.self_sub_floor q
    rw [hfloor] at this
    linarith [h]
  unfold roundHalfEven
  rw [hfr, if_neg (by norm_num), if_neg (by norm_num), hfloor]

lemma round2_eq_of_int (q : ℚ) (m : ℤ) (h : q * 100 = (m : ℚ)) :
    round2 q = (m : ℚ) / 100 := by
  unfold round2
  rw [roundHalfEven_eq_of_lo (q * 100) m (le_of_eq h.symm) (by rw [h]; linarith)]

lemma round2_zero : round2 0 = 0 := by
  rw [round2_eq_of_int 0 0 (by norm_num)]
  norm_num

/-! ### Lookup and table-mutation lemmas -/

lemma findStudent_some {l : List Student} {c : String} {s : Student}
    (h : findStudent l c = some s) : s ∈ l ∧ s.student_code = c := by
  induction l with
  | nil => simp [findStudent] at h
  | cons x xs ih =>
    rw [findStudent] at h
    split_ifs at h with hx
    · cases h
      exact ⟨List.mem_cons_self _ _, hx⟩
    · obtain ⟨h1, h2⟩ := ih h
      exact ⟨List.mem_cons_of_mem _ h1, h2⟩

lemma findStudent_none {l : List Student} {c : String} :
    findStudent l c = none ↔ ∀ s ∈ l, s.student_code ≠ c := by
  induction l with
  | nil => simp [findStudent]
  | cons x xs ih =>
    rw [findStudent]
    split_ifs with hx
    · simp [hx]
    · simpa [hx] using ih

lemma findGradeRow_some {l : List Grade} {sc subc : String} {g : Grade}
    (h : findGradeRow l sc subc = some g) :
    g ∈ l ∧ g.student_code = sc ∧ g.subject_code = subc := by
  induction l with
  | nil => simp [findGradeRow] at h
  | cons x xs ih =>
    rw [findGradeRow] at h
    split_ifs at h with hx
    · cases h
      exact ⟨List.mem_cons_self _ _, hx.1, hx.2⟩
    · obtain ⟨h1, h2⟩ := ih h
      exact ⟨List.mem_cons_of_mem _ h1, h2⟩

lemma findGradeRow_none {l : List Grade} {sc subc : String} :
    findGradeRow l sc subc = none ↔
      ∀ g ∈ l, ¬(g.student_code = sc ∧ g.subject_code = subc) := by
  induction l with
  | nil => simp [findGradeRow]
  | cons x xs ih =>
    rw [findGradeRow]
    split_ifs with hx
    · simp [hx]
    · rw [ih]
      constructor
      · intro h g hg
        rcases List.mem_cons.1 hg with rfl | hg
        · exact hx
        · exact h g hg
      · intro h g hg
        exact h g (List.mem_cons_of_mem _ hg)

lemma findGradeRow_eq_head (l : List Grade) (sc subc : String) :
    findGradeRow l sc subc = (pairRows l sc subc).head? := by
  induction l with
  | nil => rfl
  | cons x xs ih =>
    rw [findGradeRow, pairRows]
    split_ifs with hx
    · rfl
    · exact ih

lemma mem_gradesOf {l : List Grade} {sc : String} {g : Grade} :
    g ∈ gradesOf l sc ↔ g ∈ l ∧ g.student_code = sc := by
  induction l with
  | nil => simp [gradesOf]
  | cons x xs ih =>
    rw [gradesOf]
    split_ifs with hx
    · constructor
      · intro hmem
        rcases List.mem_cons.1 hmem with rfl | h
        · exact ⟨List.mem_cons_self _ _, hx⟩
        · obtain ⟨h1, h2⟩ := ih.1 h
          exact ⟨List.mem_cons_of_mem _ h1, h2⟩
      · rintro ⟨h1, h2⟩
        rcases List.mem_cons.1 h1 with rfl | h1
        · exact List.mem_cons_self _ _
        · exact List.mem_cons_of_mem _ (ih.2 ⟨h1, h2⟩)
    · constructor
      · intro h
        obtain ⟨h1, h2⟩ := ih.1 h
        exact ⟨List.mem_cons_of_mem _ h1, h2⟩
      · rintro ⟨h1, h2⟩
        rcases List.mem_cons.1 h1 with rfl | h1
        · exact absurd h2 hx
        · exact ih.2 ⟨h1, h2⟩

lemma gradesOf_append (l1 l2 : List Grade) (sc : String) :
    gradesOf (l1 ++ l2) sc = gradesOf l1 sc ++ gradesOf l2 sc := by
  induction l1 with
  | nil => rfl
  | cons x xs ih =>
    rw [List.cons_append, gradesOf, gradesOf]
    split_ifs with hx
    · rw [ih, List.cons_append]
    · exact ih

lemma mem_removeGradesOf {l : List Grade} {sc : String} {g : Grade} :
    g ∈ removeGradesOf l sc ↔ g ∈ l ∧ g.student_code ≠ sc := by
  induction l with
  | nil => simp [removeGradesOf]
  | cons x xs ih =>
    rw [removeGradesOf]
    split_ifs with hx
    · rw [ih]
      constructor
      · rintro ⟨h1, h2⟩
        exact ⟨List.mem_cons_of_mem _ h1, h2⟩
      · rintro ⟨h1, h2⟩
        rcases List.mem_cons.1 h1 with rfl | h1
        · exact absurd hx h2
        · exact ⟨h1, h2⟩
    · constructor
      · intro hmem
        rcases List.mem_cons.1 hmem with rfl | h
        · exact ⟨List.mem_cons_self _ _, hx⟩
        · obtain ⟨h1, h2⟩ := ih.1 h
          exact ⟨List.mem_cons_of_mem _ h1, h2⟩
      · rintro ⟨h1, h2⟩
        rcases List.mem_cons.1 h1 with rfl | h1
        · exact List.mem_cons_self _ _
        · exact List.mem_cons_of_mem _ (ih.2 ⟨h1, h2⟩)

lemma mem_removeStudent {l : List Student} {sc : String} {s : Student} :
    s ∈ removeStudent l sc ↔ s ∈ l ∧ s.student_code ≠ sc := by
  induction l with
  | nil => simp [removeStudent]
  | cons x xs ih =>
    rw [removeStudent]
    split_ifs with hx
    · rw [ih]
      constructor
      · rintro ⟨h1, h2⟩
        exact ⟨List.mem_cons_of_mem _ h1, h2⟩
      · rintro ⟨h1, h2⟩
        rcases List.mem_cons.1 h1 with rfl | h1
        · exact absurd hx h2
        · exact ⟨h1, h2⟩
    · constructor
      · intro hmem
        rcases List.mem_cons.1 hmem with rfl | h
        · exact ⟨List.mem_cons_self _ _, hx⟩
        · obtain ⟨h1, h2⟩ := ih.1 h
          exact ⟨List.mem_cons_of_mem _ h1, h2⟩
      · rintro ⟨h1, h2⟩
        rcases List.mem_cons.1 h1 with rfl | h1
        · exact List.mem_cons_self _ _
        · exact List.mem_cons_of_mem _ (ih.2 ⟨h1, h2⟩)

lemma findStudent_removeStudent (l : List Student) (sc : String) :
    findStudent (removeStudent l sc) sc = none := by
  rw [findStudent_none]
  intro s hs
  exact (mem_removeStudent.1 hs).2

lemma gradesOf_removeGradesOf (l : List Grade) (sc : String) :
    gradesOf (removeGradesOf l sc) sc = [] := by
  induction l with
  | nil => rfl
  | cons x xs ih =>
    rw [removeGradesOf]
    split_ifs with hx
    · exact ih
    · rw [gradesOf, if_neg hx]
      exact ih

lemma pairRows_eq_nil {l : List Grade} {sc subc : String}
    (h : ∀ g ∈ l, ¬(g.student_code = sc ∧ g.subject_code = subc)) :
    pairRows l sc subc = [] := by
  induction l with
  | nil => rfl
  | cons x xs ih =>
    rw [pairRows, if_neg (h x (List.mem_cons_self _ _))]
    exact ih fun g hg => h g (List.mem_cons_of_mem _ hg)

lemma pairRows_append (l1 l2 : List Grade) (sc subc : String) :
    pairRows (l1 ++ l2) sc subc = pairRows l1 sc subc ++ pairRows l2 sc subc := by
  induction l1 with
  | nil => rfl
  | cons x xs ih =>
    rw [List.cons_append, pairRows, pairRows]
    split_ifs with hx
    · rw [ih, List.cons_append]
    · exact ih

lemma mem_pairRows {l : List Grade} {sc subc : String} {g : Grade} :
    g ∈ pairRows l sc subc ↔ g ∈ l ∧ g.student_code = sc ∧ g.subject_code = subc := by
  induction l with
  | nil => simp [pairRows]
  | cons x xs ih =>
    rw [pairRows]
    split_ifs with hx
    · constructor
      · intro hmem
        rcases List.mem_cons.1 hmem with rfl | h
        · exact ⟨List.mem_cons_self _ _, hx.1, hx.2⟩
        · obtain ⟨h1, h2⟩ := ih.1 h
          exact ⟨List.mem_cons_of_mem _ h1, h2⟩
      · rintro ⟨h1, h2⟩
        rcases List.mem_cons.1 h1 with rfl | h1
        · exact List.mem_cons_self _ _
        · exact List.mem_cons_of_mem _ (ih.2 ⟨h1, h2⟩)
    · constructor
      · intro h
        obtain ⟨h1, h2⟩ := ih.1 h
        exact ⟨List.mem_cons_of_mem _ h1, h2⟩
      · rintro ⟨h1, h2⟩
        rcases List.mem_cons.1 h1 with rfl | h1
        · exact absurd ⟨h2.1, h2.2⟩ hx
        · exact ih.2 ⟨h1, h2⟩

/-! ### Mutation helpers as maps, and code preservation -/

lemma setGwa_eq_map (l : List Student) (sc : String) (q : ℚ) :
    setGwa l sc q =
      l.map (fun s => if s.student_code = sc then { s with gwa := q } else s) := by
  induction l with
  | nil => rfl
  | cons x xs ih => rw [setGwa, List.map_cons, ih]

lemma setCourse_eq_map (l : List Student) (sc cc : String) :
    setCourse l sc cc =
      l.map (fun s => if s.student_code = sc then { s with course_code := cc } else s) := by
  induction l with
  | nil => rfl
  | cons x xs ih => rw [setCourse, List.map_cons, ih]

lemma replaceGradeRow_eq_map (l : List Grade) (i : Nat) (g1 : Grade) :
    replaceGradeRow l i g1 = l.map (fun g => if g.id = i then g1 else g) := by
  induction l with
  | nil => rfl
  | cons x xs ih => rw [replaceGradeRow, List.map_cons, ih]

lemma findStudent_setGwa (l : List Student) (sc : String) (q : ℚ) (c : String) :
    findStudent (setGwa l sc q) c =
      (findStudent l c).map
        (fun s => if s.student_code = sc then { s with gwa := q } else s) := by
  induction l with
  | nil => rfl
  | cons x xs ih =>
    rw [setGwa, findStudent, findStudent]
    by_cases hc : x.student_code = c
    · have hcode : (if x.student_code = sc then { x with gwa := q } else x).student_code
          = x.student_code := by
        split_ifs <;> rfl
      rw [if_pos (by rw [hcode]; exact hc), if_pos hc]
      rfl
    · have hcode : (if x.student_code = sc then { x with gwa := q } else x).student_code
          = x.student_code := by
        split_ifs <;> rfl
      rw [if_neg (by rw [hcode]; exact hc), if_neg hc]
      exact ih

lemma findStudent_setCourse (l : List Student) (sc cc : String) (c : String) :
    findStudent (setCourse l sc cc) c =
      (findStudent l c).map
        (fun s => if s.student_code = sc then { s with course_code := cc } else s) := by
  induction l with
  | nil => rfl
  | cons x xs ih =>
    rw [setCourse, findStudent, findStudent]
    by_cases hc : x.student_code = c
    · have hcode : (if x.student_code = sc then { x with course_code := cc } else x).student_code
          = x.student_code := by
        split_ifs <;> rfl
      rw [if_pos (by rw [hcode]; exact hc), if_pos hc]
      rfl
    · have hcode : (if x.student_code = sc then { x with course_code := cc } else x).student_code
          = x.student_code := by
        split_ifs <;> rfl
      rw [if_neg (by rw [hcode]; exact hc), if_neg hc]
      exact ih

lemma findStudent_append (l1 l2 : List Student) (c : String) :
    findStudent (l1 ++ l2) c =
      (findStudent l1 c).or (findStudent l2 c) := by
  induction l1 with
  | nil => rfl
  | cons x xs ih =>
    rw [List.cons_append, findStudent, findStudent]
    split_ifs with hx
    · rfl
    · exact ih

/-! ### Structure of `update_student_gwa` -/

lemma update_student_gwa_grades (db : DB) (sc : String) :
    (update_student_gwa db sc).grades = db.grades := by
  unfold update_student_gwa
  cases findStudent db.students sc <;> rfl

lemma update_student_gwa_courses (db : DB) (sc : String) :
    (update_student_gwa db sc).courses = db.courses := by
  unfold update_student_gwa
  cases findStudent db.students sc <;> rfl

lemma update_student_gwa_nextGradeId (db : DB) (sc : String) :
    (update_student_gwa db sc).nextGradeId = db.nextGradeId := by
  unfold update_student_gwa
  cases findStudent db.students sc <;> rfl

lemma update_student_gwa_students_of_some (db : DB) (sc : String) {st : Student}
    (h : findStudent db.students sc = some st) :
    (update_student_gwa db sc).students =
      setGwa db.students sc (computedGwa db.grades sc) := by
  unfold update_student_gwa
  rw [h]

lemma computedGwa_of_nil {gs : List Grade} {sc : String}
    (h : gradesOf gs sc = []) : computedGwa gs sc = 0 := by
  unfold computedGwa
  rw [h]
  rfl

lemma computedGwa_of_cons {gs : List Grade} {sc : String} {x : Grade} {xs : List Grade}
    (h : gradesOf gs sc = x :: xs) :
    computedGwa gs sc =
      if (((x :: xs).map Grade.grade).sum / ((x :: xs).length : ℚ)) = 0 then 0
      else round2 (((x :: xs).map Grade.grade).sum / ((x :: xs).length : ℚ)) := by
  unfold computedGwa
  rw [h]
  rfl

/-- The value `update_student_gwa` writes satisfies the per-student
GWA invariant against the grade table it was computed from. -/
lemma studentGwaOk_of_computedGwa (gs : List Grade) (s : Student)
    (h : s.gwa = computedGwa gs s.student_code) : studentGwaOk gs s := by
  unfold studentGwaOk
  cases hg : gradesOf gs s.student_code with
  | nil =>
    left
    exact ⟨rfl, by rw [h, computedGwa_of_nil hg]⟩
  | cons x xs =>
    right
    refine ⟨by simp, ?_⟩
    rw [h, computedGwa_of_cons hg]
    split_ifs with h0
    · rw [h0, round2_zero]
    · rfl

/-! ### Uniqueness-based lemmas about in-place row replacement -/

lemma eq_of_mem_id_unique {l : List Grade}
    (hp : l.Pairwise (fun a b => a.id ≠ b.id))
    {g0 g : Grade} (hg0 : g0 ∈ l) (hg : g ∈ l) (h : g.id = g0.id) : g = g0 := by
  induction l with
  | nil => cases hg
  | cons x xs ih =>
    rcases List.pairwise_cons.1 hp with ⟨hx, hxs⟩
    rcases List.mem_cons.1 hg0 with rfl | hg0' <;> rcases List.mem_cons.1 hg with rfl | hg'
    · rfl
    · exact absurd h.symm (hx g hg')
    · exact absurd h (hx g0 hg0')
    · exact ih hxs hg0' hg'

lemma replaceGradeRow_map_eq {l : List Grade} {i : Nat} {g0 g1 : Grade}
    {β : Type} (f : Grade → β)
    (hid : ∀ g ∈ l, g.id = i → g = g0) (hf : f g1 = f g0) :
    (replaceGradeRow l i g1).map f = l.map f := by
  induction l with
  | nil => rfl
  | cons x xs ih =>
    rw [replaceGradeRow, List.map_cons, List.map_cons]
    split_ifs with hx
    · rw [hid x (List.mem_cons_self _ _) hx, hf,
        ih fun g hg => hid g (List.mem_cons_of_mem _ hg)]
    · rw [ih fun g hg => hid g (List.mem_cons_of_mem _ hg)]

lemma replaceGradeRow_of_no_id {l : List Grade} {i : Nat} {g1 : Grade}
    (h : ∀ g ∈ l, g.id ≠ i) : replaceGradeRow l i g1 = l := by
  induction l with
  | nil => rfl
  | cons x xs ih =>
    rw [replaceGradeRow, if_neg (h x (List.mem_cons_self _ _))]
    rw [ih fun g hg => h g (List.mem_cons_of_mem _ hg)]

lemma gradesOf_replaceGradeRow {l : List Grade} {i : Nat} {g0 g1 : Grade}
    (hid : ∀ g ∈ l, g.id = i → g = g0) {c : String}
    (h0 : g0.student_code ≠ c) (h1 : g1.student_code ≠ c) :
    gradesOf (replaceGradeRow l i g1) c = gradesOf l c := by
  induction l with
  | nil => rfl
  | cons x xs ih =>
    have ih' := ih fun g hg => hid g (List.mem_cons_of_mem _ hg)
    rw [replaceGradeRow]
    by_cases hx : x.id = i
    · have hx0 : x = g0 := hid x (List.mem_cons_self _ _) hx
      rw [if_pos hx, gradesOf, gradesOf, if_neg h1, if_neg (by rw [hx0]; exact h0), ih']
    · rw [if_neg hx, gradesOf, gradesOf]
      by_cases hc : x.student_code = c
      · rw [if_pos hc, if_pos hc, ih']
      · rw [if_neg hc, if_neg hc, ih']

lemma gradesOf_singleton (g : Grade) (c : String) :
    gradesOf [g] c = if g.student_code = c then [g] else [] := by
  rw [gradesOf]
  split_ifs <;> rfl

lemma studentGwaOk_congr {gs1 gs2 : List Grade} {s : Student}
    (h : gradesOf gs1 s.student_code = gradesOf gs2 s.student_code)
    (hok : studentGwaOk gs2 s) : studentGwaOk gs1 s := by
  unfold studentGwaOk at hok ⊢
  rw [h]
  exact hok

/-! ### Inversion of a successful `add_grade` -/

lemma add_grade_ok_inv {db : DB} {sc subc subn : String} {v : ℚ} {db' : DB} {g : Grade}
    (hok : add_grade db sc subc subn v = .ok (db', g)) :
    (∃ st, findStudent db.students sc = some st) ∧ ¬(v < 1 ∨ 5 < v) ∧
    ((∃ g0, findGradeRow db.grades sc subc = some g0 ∧
        g = { g0 with grade := v, subject_name := subn } ∧
        db' = update_student_gwa
          { db with grades := (replaceGradeRow db.grades g0.id
              ({ g0 with grade := v, subject_name := subn })) } sc) ∨
     (findGradeRow db.grades sc subc = none ∧
        g = ⟨db.nextGradeId, sc, subc, subn, v⟩ ∧
        db' = update_student_gwa
          { db with grades := db.grades ++ [⟨db.nextGradeId, sc, subc, subn, v⟩],
                    nextGradeId := db.nextGradeId + 1 } sc)) := by
  unfold add_grade at hok
  cases hst : findStudent db.students sc with
  | none =>
    rw [hst] at hok
    cases hok
  | some st =>
    rw [hst] at hok
    split_ifs at hok with hr
    cases hgr : findGradeRow db.grades sc subc with
    | some g0 =>
      rw [hgr] at hok
      simp only [Except.ok.injEq, Prod.mk.injEq] at hok
      exact ⟨⟨st, rfl⟩, hr, Or.inl ⟨g0, rfl, hok.2.symm, hok.1.symm⟩⟩
    | none =>
      rw [hgr] at hok
      simp only [Except.ok.injEq, Prod.mk.injEq] at hok
      exact ⟨⟨st, rfl⟩, hr, Or.inr ⟨rfl, hok.2.symm, hok.1.symm⟩⟩

/-! ### Well-formedness preservation -/

lemma WF_update_student_gwa {db : DB} (sc : String) (hwf : WF db) :
    WF (update_student_gwa db sc) := by
  unfold update_student_gwa
  cases hst : findStudent db.students sc with
  | none => exact hwf
  | some st =>
    obtain ⟨h1, h2, h3, h4⟩ := hwf
    refine ⟨?_, h2, h3, h4⟩
    rw [setGwa_eq_map, List.pairwise_map]
    refine h1.imp ?_
    intro a b hab
    split_ifs <;> exact hab

lemma pairwise_id_of_map_eq {l1 l2 : List Grade}
    (h : l1.map Grade.id = l2.map Grade.id)
    (hp : l2.Pairwise fun a b => a.id ≠ b.id) :
    l1.Pairwise fun a b => a.id ≠ b.id := by
  have h2 : (l2.map Grade.id).Pairwise (fun a b => a ≠ b) := List.pairwise_map.2 hp
  rw [← h] at h2
  exact List.pairwise_map.1 h2

lemma pairwise_pair_of_map_eq {l1 l2 : List Grade}
    (h : l1.map (fun g => (g.student_code, g.subject_code)) =
         l2.map (fun g => (g.student_code, g.subject_code)))
    (hp : l2.Pairwise fun a b =>
      ¬(a.student_code = b.student_code ∧ a.subject_code = b.subject_code)) :
    l1.Pairwise fun a b =>
      ¬(a.student_code = b.student_code ∧ a.subject_code = b.subject_code) := by
  have h2 : ((l2.map fun g => (g.student_code, g.subject_code)).Pairwise
      fun a b => ¬(a.1 = b.1 ∧ a.2 = b.2)) := List.pairwise_map.2 hp
  rw [← h] at h2
  exact List.pairwise_map.1 h2

lemma WF_grades_update {db : DB} {g0 g1 : Grade} (hwf : WF db)
    (hmem : g0 ∈ db.grades) (hid : g1.id = g0.id)
    (hsc : g1.student_code = g0.student_code) (hsub : g1.subject_code = g0.subject_code) :
    WF { db with grades := replaceGradeRow db.grades g0.id g1 } := by
  obtain ⟨h1, h2, h3, h4⟩ := hwf
  have hid_all : ∀ g ∈ db.grades, g.id = g0.id → g = g0 :=
    fun g hg h => eq_of_mem_id_unique h2 hmem hg h
  have hmap_id : (replaceGradeRow db.grades g0.id g1).map Grade.id =
      db.grades.map Grade.id :=
    replaceGradeRow_map_eq Grade.id hid_all hid
  have hmap_pair : (replaceGradeRow db.grades g0.id g1).map
        (fun g => (g.student_code, g.subject_code)) =
      db.grades.map (fun g => (g.student_code, g.subject_code)) :=
    replaceGradeRow_map_eq _ hid_all (by rw [hsc, hsub])
  refine ⟨h1, pairwise_id_of_map_eq hmap_id h2, ?_, pairwise_pair_of_map_eq hmap_pair h4⟩
  intro g hg
  have hmm : g.id ∈ (replaceGradeRow db.grades g0.id g1).map Grade.id :=
    List.mem_map_of_mem Grade.id hg
  rw [hmap_id] at hmm
  obtain ⟨g2, hg2, hgid⟩ := List.mem_map.1 hmm
  rw [← hgid]
  exact h3 g2 hg2

lemma WF_grades_insert {db : DB} {sc subc subn : String} {v : ℚ} (hwf : WF db)
    (hnone : findGradeRow db.grades sc subc = none) :
    WF { db with grades := db.grades ++ [⟨db.nextGradeId, sc, subc, subn, v⟩],
                 nextGradeId := db.nextGradeId + 1 } := by
  obtain ⟨h1, h2, h3, h4⟩ := hwf
  have hno := findGradeRow_none.1 hnone
  refine ⟨h1, ?_, ?_, ?_⟩
  · rw [List.pairwise_append]
    refine ⟨h2, List.pairwise_singleton _ _, ?_⟩
    intro a ha b hb
    rw [List.mem_singleton] at hb
    subst hb
    exact Nat.ne_of_lt (h3 a ha)
  · intro g hg
    rcases List.mem_append.1 hg with hg | hg
    · exact Nat.lt_succ_of_lt (h3 g hg)
    · rw [List.mem_singleton] at hg
      subst hg
      exact Nat.lt_succ_self _
  · rw [List.pairwise_append]
    refine ⟨h4, List.pairwise_singleton _ _, ?_⟩
    intro a ha b hb
    rw [List.mem_singleton] at hb
    subst hb
    exact hno a ha

lemma WF_add_grade {db : DB} {sc subc subn : String} {v : ℚ} {db' : DB} {g : Grade}
    (hwf : WF db) (hok : add_grade db sc subc subn v = .ok (db', g)) : WF db' := by
  obtain ⟨⟨st, hst⟩, hr, hcase⟩ := add_grade_ok_inv hok
  rcases hcase with ⟨g0, hgr, hg, hdb⟩ | ⟨hgr, hg, hdb⟩
  · subst hdb
    exact WF_update_student_gwa sc
      (WF_grades_update hwf (findGradeRow_some hgr).1 rfl rfl rfl)
  · subst hdb
    exact WF_update_student_gwa sc (WF_grades_insert hwf hgr)

/-! ### Preservation of the GWA invariant by the grade upsert -/

lemma gwaInvariant_after (db1 : DB) (sc : String) {st : Student}
    (hst : findStudent db1.students sc = some st)
    (hpres : ∀ c, c ≠ sc → gradesOf db1.grades c = gradesOf db.grades c)
    (hinv : gwaInvariant db) (hstu : db1.students = db.students) :
    gwaInvariant (update_student_gwa db1 sc) := by
  intro s' hs'
  rw [update_student_gwa_grades]
  rw [update_student_gwa_students_of_some db1 sc hst, setGwa_eq_map] at hs'
  obtain ⟨s, hs, hmap⟩ := List.mem_map.1 hs'
  by_cases hcs : s.student_code = sc
  · rw [if_pos hcs] at hmap
    subst hmap
    apply studentGwaOk_of_computedGwa
    have hcode : ({ s with gwa := computedGwa db1.grades sc } : Student).student_code
        = s.student_code := rfl
    rw [hcode, hcs]
  · rw [if_neg hcs] at hmap
    subst hmap
    refine studentGwaOk_congr (hpres s.student_code hcs) ?_
    rw [hstu] at hs
    exact hinv s hs

lemma gwaInvariant_add_grade {db : DB} {sc subc subn : String} {v : ℚ} {db' : DB} {g : Grade}
    (hwf : WF db) (hinv : gwaInvariant db)
    (hok : add_grade db sc subc subn v = .ok (db', g)) : gwaInvariant db' := by
  obtain ⟨⟨st, hst⟩, hr, hcase⟩ := add_grade_ok_inv hok
  have hg0unique := hwf.2.1
  rcases hcase with ⟨g0, hgr, hg, hdb⟩ | ⟨hgr, hg, hdb⟩
  · obtain ⟨hg0mem, hg0sc, hg0sub⟩ := findGradeRow_some hgr
    subst hdb
    refine gwaInvariant_after _ sc hst ?_ hinv rfl
    intro c hc
    exact gradesOf_replaceGradeRow
      (fun g2 hg2 h2 => eq_of_mem_id_unique hg0unique hg0mem hg2 h2)
      (by rw [hg0sc]; exact Ne.symm hc)
      (by show g0.student_code ≠ c; rw [hg0sc]; exact Ne.symm hc)
  · subst hdb
    refine gwaInvariant_after _ sc hst ?_ hinv rfl
    intro c hc
    show gradesOf (db.grades ++ [⟨db.nextGradeId, sc, subc, subn, v⟩]) c = gradesOf db.grades c
    rw [gradesOf_append, gradesOf_singleton]
    rw [if_neg (by show ¬sc = c; exact Ne.symm hc)]
    rw [List.append_nil]

/-! ### The upsert keyed by (student_code, subject_code) -/

lemma pairRows_replaceGradeRow {l : List Grade} {g0 g1 : Grade} {sc subc : String}
    (hpid : l.Pairwise fun a b => a.id ≠ b.id)
    (hppair : l.Pairwise fun a b =>
      ¬(a.student_code = b.student_code ∧ a.subject_code = b.subject_code))
    (hmem : g0 ∈ l) (hg0 : g0.student_code = sc ∧ g0.subject_code = subc)
    (hg1 : g1.student_code = sc ∧ g1.subject_code = subc) :
    pairRows (replaceGradeRow l g0.id g1) sc subc = [g1] := by
  induction l with
  | nil => cases hmem
  | cons x xs ih =>
    rcases List.pairwise_cons.1 hpid with ⟨hxid, hxsid⟩
    rcases List.pairwise_cons.1 hppair with ⟨hxpair, hxspair⟩
    rw [replaceGradeRow]
    by_cases hx : x.id = g0.id
    · have hxg0 : x = g0 := by
        rcases List.mem_cons.1 hmem with rfl | hmem'
        · rfl
        · exact absurd hx (hxid g0 hmem')
      rw [if_pos hx, pairRows, if_pos ⟨hg1.1, hg1.2⟩]
      have hrepl : replaceGradeRow xs g0.id g1 = xs :=
        replaceGradeRow_of_no_id fun g hg h => hxid g hg (hx.trans h.symm)
      rw [hrepl, pairRows_eq_nil]
      intro g hg hgmatch
      refine hxpair g hg ⟨?_, ?_⟩
      · rw [hxg0, hg0.1, hgmatch.1]
      · rw [hxg0, hg0.2, hgmatch.2]
    · have hg0mem' : g0 ∈ xs := by
        rcases List.mem_cons.1 hmem with rfl | h
        · exact absurd rfl hx
        · exact h
      rw [if_neg hx, pairRows]
      have hxnot : ¬(x.student_code = sc ∧ x.subject_code = subc) := by
        intro hmatch
        exact hxpair g0 hg0mem'
          ⟨hmatch.1.trans hg0.1.symm, hmatch.2.trans hg0.2.symm⟩
      rw [if_neg hxnot]
      exact ih hxsid hxspair hg0mem'

lemma pairRows_append_new {l : List Grade} {sc subc : String} {g1 : Grade}
    (hnone : findGradeRow l sc subc = none)
    (hg1 : g1.student_code = sc ∧ g1.subject_code = subc) :
    pairRows (l ++ [g1]) sc subc = [g1] := by
  rw [pairRows_append, pairRows_eq_nil (findGradeRow_none.1 hnone),
    List.nil_append, pairRows, if_pos ⟨hg1.1, hg1.2⟩]
  rfl

/-- After a successful `add_grade`, exactly one grade row exists for the
pair, and it is the returned row, carrying the submitted value and
subject name. -/
lemma add_grade_pairRows {db : DB} {sc subc subn : String} {v : ℚ} {db' : DB} {g : Grade}
    (hwf : WF db) (hok : add_grade db sc subc subn v = .ok (db', g)) :
    pairRows db'.grades sc subc = [g] ∧ g.student_code = sc ∧ g.subject_code = subc ∧
    g.grade = v ∧ g.subject_name = subn := by
  obtain ⟨⟨st, hst⟩, hr, hcase⟩ := add_grade_ok_inv hok
  rcases hcase with ⟨g0, hgr, hg, hdb⟩ | ⟨hgr, hg, hdb⟩
  · obtain ⟨hm, hsc0, hsub0⟩ := findGradeRow_some hgr
    subst hdb
    subst hg
    rw [update_student_gwa_grades]
    exact ⟨pairRows_replaceGradeRow hwf.2.1 hwf.2.2.2 hm ⟨hsc0, hsub0⟩ ⟨hsc0, hsub0⟩,
      hsc0, hsub0, rfl, rfl⟩
  · subst hdb
    subst hg
    rw [update_student_gwa_grades]
    exact ⟨pairRows_append_new hgr ⟨rfl, rfl⟩, rfl, rfl, rfl, rfl⟩

lemma add_grade_students {db : DB} {sc subc subn : String} {v : ℚ} {db' : DB} {g : Grade}
    (hok : add_grade db sc subc subn v = .ok (db', g)) :
    ∃ q, db'.students = setGwa db.students sc q := by
  obtain ⟨⟨st, hst⟩, _, hcase⟩ := add_grade_ok_inv hok
  rcases hcase with ⟨g0, hgr, hg, hdb⟩ | ⟨hgr, hg, hdb⟩ <;> subst hdb <;>
    exact ⟨_, update_student_gwa_students_of_some _ sc hst⟩

lemma add_grade_succeeds {db : DB} {sc : String} (subc subn : String) {v : ℚ} {st : Student}
    (hst : findStudent db.students sc = some st) (h1 : 1 ≤ v) (h5 : v ≤ 5) :
    ∃ db' g, add_grade db sc subc subn v = .ok (db', g) := by
  unfold add_grade
  rw [hst, if_neg (by push_neg; exact ⟨h1, h5⟩)]
  cases findGradeRow db.grades sc subc <;> exact ⟨_, _, rfl⟩

lemma replaceGradeRow_self {l : List Grade} {g : Grade}
    (h : ∀ g2 ∈ l, g2.id = g.id → g2 = g) : replaceGradeRow l g.id g = l := by
  induction l with
  | nil => rfl
  | cons x xs ih =>
    rw [replaceGradeRow]
    by_cases hx : x.id = g.id
    · rw [if_pos hx, h x (List.mem_cons_self _ _) hx,
        ih fun g2 hg2 => h g2 (List.mem_cons_of_mem _ hg2)]
    · rw [if_neg hx, ih fun g2 hg2 => h g2 (List.mem_cons_of_mem _ hg2)]

lemma setGwa_setGwa (l : List Student) (sc : String) (q : ℚ) :
    setGwa (setGwa l sc q) sc q = setGwa l sc q := by
  induction l with
  | nil => rfl
  | cons x xs ih =>
    by_cases hx : x.student_code = sc
    · rw [setGwa, if_pos hx, setGwa,
        if_pos (show ({ x with gwa := q } : Student).student_code = sc from hx), ih]
    · rw [setGwa, if_neg hx, setGwa, if_neg hx, ih]

lemma update_student_gwa_idem (db : DB) (sc : String) :
    update_student_gwa (update_student_gwa db sc) sc = update_student_gwa db sc := by
  cases hst : findStudent db.students sc with
  | none =>
    have h0 : update_student_gwa db sc = db := by
      unfold update_student_gwa
      rw [hst]
    rw [h0]
    exact h0
  | some st =>
    have hstu := update_student_gwa_students_of_some db sc hst
    have hgr := update_student_gwa_grades db sc
    generalize hA : update_student_gwa db sc = A
    rw [hA] at hstu hgr
    have hst2 : findStudent A.students sc =
        some ({ st with gwa := computedGwa db.grades sc }) := by
      rw [hstu, findStudent_setGwa, hst]
      show some (if st.student_code = sc
        then { st with gwa := computedGwa db.grades sc } else st) = _
      rw [if_pos (findStudent_some hst).2]
    unfold update_student_gwa
    rw [hst2]
    have hq : computedGwa A.grades sc = computedGwa db.grades sc := by rw [hgr]
    rw [hq, hstu, setGwa_setGwa, ← hstu]

/-- A successful `add_grade` is idempotent: repeating the identical
request leaves the state unchanged and returns the same row. -/
lemma add_grade_idem {db : DB} {sc subc subn : String} {v : ℚ} {db' : DB} {g : Grade}
    (hwf : WF db) (hok : add_grade db sc subc subn v = .ok (db', g)) :
    add_grade db' sc subc subn v = .ok (db', g) := by
  have hwf' := WF_add_grade hwf hok
  obtain ⟨hpr, hgsc, hgsub, hggrade, hgsubn⟩ := add_grade_pairRows hwf hok
  obtain ⟨⟨st, hst⟩, hr, hcase⟩ := add_grade_ok_inv hok
  obtain ⟨q, hstu⟩ := add_grade_students hok
  have hst' : findStudent db'.students sc = some ({ st with gwa := q }) := by
    rw [hstu, findStudent_setGwa, hst]
    show some (if st.student_code = sc then { st with gwa := q } else st) = _
    rw [if_pos (findStudent_some hst).2]
  have hfgr : findGradeRow db'.grades sc subc = some g := by
    rw [findGradeRow_eq_head, hpr]
    rfl
  have hgmem : g ∈ db'.grades :=
    (mem_pairRows.1 (by rw [hpr]; exact List.mem_singleton_self g)).1
  have geta : ({ g with grade := v, subject_name := subn } : Grade) = g := by
    rw [← hggrade, ← hgsubn]
  have hrepl2 : replaceGradeRow db'.grades g.id g = db'.grades :=
    replaceGradeRow_self fun g2 hg2 h2 => eq_of_mem_id_unique hwf'.2.1 hgmem hg2 h2
  have hfix : update_student_gwa db' sc = db' := by
    rcases hcase with ⟨g0, hgr, hg, hdb⟩ | ⟨hgr, hg, hdb⟩ <;>
      rw [hdb] <;> exact update_student_gwa_idem _ sc
  have heta : ({ db' with grades := db'.grades } : DB) = db' := rfl
  unfold add_grade
  rw [hst', if_neg hr, hfgr]
  show Except.ok (update_student_gwa
      { db' with grades := (replaceGradeRow db'.grades g.id
          ({ g with grade := v, subject_name := subn })) } sc,
      ({ g with grade := v, subject_name := subn } : Grade)) = Except.ok (db', g)
  rw [geta, hrepl2, heta, hfix]

/-- Last-write-wins over any sequence of accepted upserts to one
(student, subject) pair. -/
lemma applyGradeSeq_last {sc subc subn : String} {vs : List ℚ} :
    ∀ {db : DB} {st : Student}, WF db → findStudent db.students sc = some st →
    (∀ v ∈ vs, 1 ≤ v ∧ v ≤ 5) → ∀ {w : ℚ}, vs.getLast? = some w →
    (pairRows (applyGradeSeq db sc subc subn vs).grades sc subc).map Grade.grade
      = [w] := by
  induction vs with
  | nil =>
    intro db st _ _ _ w hlast
    cases hlast
  | cons v vs ih =>
    intro db st hwf hst hvs w hlast
    obtain ⟨h1, h5⟩ := hvs v (List.mem_cons_self _ _)
    obtain ⟨db', g, hok⟩ := add_grade_succeeds subc subn hst h1 h5
    rw [applyGradeSeq, hok]
    have hsa : stateAfter db (Except.ok (db', g)) = db' := rfl
    rw [hsa]
    cases vs with
    | nil =>
      have hw : v = w := by
        rw [List.getLast?_singleton] at hlast
        exact Option.some.inj hlast
      obtain ⟨hpr, _, _, hgr, _⟩ := add_grade_pairRows hwf hok
      rw [applyGradeSeq, hpr, List.map_cons, List.map_nil, hgr, hw]
    | cons v2 rest =>
      have hlast' : (v2 :: rest).getLast? = some w := by
        rwa [List.getLast?_cons_cons] at hlast
      have hwf' := WF_add_grade hwf hok
      obtain ⟨q, hstu⟩ := add_grade_students hok
      have hst' : findStudent db'.students sc = some ({ st with gwa := q }) := by
        rw [hstu, findStudent_setGwa, hst]
        show some (if st.student_code = sc then { st with gwa := q } else st) = _
        rw [if_pos (findStudent_some hst).2]
      exact ih hwf' hst' (fun u hu => hvs u (List.mem_cons_of_mem _ hu)) hlast'

/-! ### Concrete evaluation helpers -/

lemma round2_bounds {v : ℚ} (h1 : 1 ≤ v) (h5 : v ≤ 5) :
    1 ≤ round2 v ∧ round2 v ≤ 5 := by
  have hd := roundHalfEven_dist (v * 100)
  rw [abs_le] at hd
  have hlo : (100 : ℚ) ≤ (roundHalfEven (v * 100) : ℚ) := by
    have h99 : (99 : ℤ) < roundHalfEven (v * 100) := by
      by_contra hcon
      push_neg at hcon
      have hc : ((roundHalfEven (v * 100) : ℤ) : ℚ) ≤ 99 := by exact_mod_cast hcon
      linarith
    have h100 : (100 : ℤ) ≤ roundHalfEven (v * 100) := h99
    exact_mod_cast h100
  have hhi : (roundHalfEven (v * 100) : ℚ) ≤ 500 := by
    have h501 : roundHalfEven (v * 100) < 501 := by
      by_contra hcon
      push_neg at hcon
      have hc : (501 : ℚ) ≤ ((roundHalfEven (v * 100) : ℤ) : ℚ) := by exact_mod_cast hcon
      linarith
    have h500 : roundHalfEven (v * 100) ≤ 500 := by omega
    exact_mod_cast h500
  unfold round2
  constructor
  · rw [le_div_iff₀ (by norm_num : (0:ℚ) < 100)]
    linarith
  · rw [div_le_iff₀ (by norm_num : (0:ℚ) < 100)]
    linarith

lemma round2_three_halves : round2 (3/2 : ℚ) = 3/2 := by
  rw [round2_eq_of_int (3/2 : ℚ) 150 (by norm_num)]
  norm_num

lemma round2_five_fourths : round2 (5/4 : ℚ) = 5/4 := by
  rw [round2_eq_of_int (5/4 : ℚ) 125 (by norm_num)]
  norm_num

lemma round2_nine_eighths : round2 (9/8 : ℚ) = 28/25 := by
  unfold round2
  rw [roundHalfEven_eq_of_tie (9/8 * 100 : ℚ) 112 (by norm_num)]
  rw [if_pos (by norm_num)]
  norm_num

lemma round2_1554 : round2 (1554/1000 : ℚ) = 31/20 := by
  unfold round2
  rw [roundHalfEven_eq_of_lo (1554/1000 * 100 : ℚ) 155 (by norm_num) (by norm_num)]
  norm_num

lemma round2_31_20 : round2 (31/20 : ℚ) = 31/20 := by
  rw [round2_eq_of_int (31/20 : ℚ) 155 (by norm_num)]
  norm_num

lemma add_grade_insert_eval {db : DB} {sc : String} (subc subn : String) {v : ℚ}
    {st : Student} (hst : findStudent db.students sc = some st)
    (hr : ¬(v < 1 ∨ 5 < v)) (hnone : findGradeRow db.grades sc subc = none) :
    add_grade db sc subc subn v =
      .ok (update_student_gwa
        { db with grades := db.grades ++ [⟨db.nextGradeId, sc, subc, subn, v⟩],
                  nextGradeId := db.nextGradeId + 1 } sc,
        ⟨db.nextGradeId, sc, subc, subn, v⟩) := by
  unfold add_grade
  rw [hst, if_neg hr, hnone]

lemma update_student_gwa_eval {db : DB} {sc : String} {st : Student}
    (hst : findStudent db.students sc = some st) :
    update_student_gwa db sc =
      { db with students := setGwa db.students sc (computedGwa db.grades sc) } := by
  unfold update_student_gwa
  rw [hst]

lemma add_grade_dbS_eval :
    add_grade dbS "24-001" "CS 131" "Computer Programming 1" (3/2) =
      .ok (dbS1, ⟨1, "24-001", "CS 131", "Computer Programming 1", 3/2⟩) := by
  rw [add_grade_insert_eval "CS 131" "Computer Programming 1"
    (show findStudent dbS.students "24-001" = some ⟨1, "24-001", "Ana Cruz", "BSIT", 0⟩
      from rfl) (by norm_num) rfl]
  rw [update_student_gwa_eval
    (show findStudent ({ dbS with
        grades := dbS.grades ++
          [⟨dbS.nextGradeId, "24-001", "CS 131", "Computer Programming 1", (3/2 : ℚ)⟩],
        nextGradeId := dbS.nextGradeId + 1 } : DB).students "24-001"
        = some ⟨1, "24-001", "Ana Cruz", "BSIT", 0⟩ from rfl)]
  have hcg : computedGwa (dbS.grades ++
      [⟨dbS.nextGradeId, "24-001", "CS 131", "Computer Programming 1", (3/2 : ℚ)⟩])
      "24-001" = 3/2 := by
    rw [computedGwa_of_cons (show gradesOf (dbS.grades ++
      [⟨dbS.nextGradeId, "24-001", "CS 131", "Computer Programming 1", (3/2 : ℚ)⟩]) "24-001"
      = [⟨1, "24-001", "CS 131", "Computer Programming 1", (3/2 : ℚ)⟩] from rfl)]
    rw [show ((List.map Grade.grade
        [(⟨1, "24-001", "CS 131", "Computer Programming 1", (3/2 : ℚ)⟩ : Grade)]).sum /
        (([(⟨1, "24-001", "CS 131", "Computer Programming 1", (3/2 : ℚ)⟩ : Grade)] :
        List Grade).length : ℚ)) = 3/2 from by norm_num]
    rw [if_neg (by norm_num : ¬(3/2 : ℚ) = 0), round2_three_halves]
  rw [hcg]
  rfl

lemma add_grade_dbG_eval :
    add_grade dbG "24-001" "MATH 111" "Mathematics in the Modern World" (5/4) =
      .ok (dbG1, ⟨2, "24-001", "MATH 111", "Mathematics in the Modern World", 5/4⟩) := by
  rw [add_grade_insert_eval "MATH 111" "Mathematics in the Modern World"
    (show findStudent dbG.students "24-001" = some ⟨1, "24-001", "Ana Cruz", "BSIT", 1⟩
      from rfl) (by norm_num) rfl]
  rw [update_student_gwa_eval
    (show findStudent ({ dbG with
        grades := dbG.grades ++
          [⟨dbG.nextGradeId, "24-001", "MATH 111", "Mathematics in the Modern World", (5/4 : ℚ)⟩],
        nextGradeId := dbG.nextGradeId + 1 } : DB).students "24-001"
        = some ⟨1, "24-001", "Ana Cruz", "BSIT", 1⟩ from rfl)]
  have hcg : computedGwa (dbG.grades ++
      [⟨dbG.nextGradeId, "24-001", "MATH 111", "Mathematics in the Modern World", (5/4 : ℚ)⟩])
      "24-001" = 28/25 := by
    rw [computedGwa_of_cons (show gradesOf (dbG.grades ++
      [⟨dbG.nextGradeId, "24-001", "MATH 111", "Mathematics in the Modern World", (5/4 : ℚ)⟩])
      "24-001" = [⟨1, "24-001", "CS 131", "Computer Programming 1", (1 : ℚ)⟩,
      ⟨2, "24-001", "MATH 111", "Mathematics in the Modern World", (5/4 : ℚ)⟩] from rfl)]
    rw [show ((List.map Grade.grade
        [(⟨1, "24-001", "CS 131", "Computer Programming 1", (1 : ℚ)⟩ : Grade),
         ⟨2, "24-001", "MATH 111", "Mathematics in the Modern World", (5/4 : ℚ)⟩]).sum /
        (([(⟨1, "24-001", "CS 131", "Computer Programming 1", (1 : ℚ)⟩ : Grade),
         ⟨2, "24-001", "MATH 111", "Mathematics in the Modern World", (5/4 : ℚ)⟩] :
         List Grade).length : ℚ)) = 9/8 from by norm_num]
    rw [if_neg (by norm_num : ¬(9/8 : ℚ) = 0), round2_nine_eighths]
  rw [hcg]
  rfl

lemma upsertGrade_dbS_eval :
    upsertGrade dbS "24-001" "CS 131" "Computer Programming 1" (3/2) =
      .ok (dbS1, ⟨1, "24-001", "CS 131", "Computer Programming 1", 3/2⟩) := by
  unfold upsertGrade gradeCreateValidate
  rw [if_neg (by norm_num)]
  show add_grade dbS "24-001" "CS 131" "Computer Programming 1" (round2 (3/2)) = _
  rw [round2_three_halves]
  exact add_grade_dbS_eval

lemma upsertGrade_dbS_1554_eval :
    upsertGrade dbS "24-001" "CS 131" "Computer Programming 1" (1554/1000) =
      .ok (dbS2, ⟨1, "24-001", "CS 131", "Computer Programming 1", 31/20⟩) := by
  unfold upsertGrade gradeCreateValidate
  rw [if_neg (by norm_num)]
  show add_grade dbS "24-001" "CS 131" "Computer Programming 1" (round2 (1554/1000)) = _
  rw [round2_1554]
  rw [add_grade_insert_eval "CS 131" "Computer Programming 1"
    (show findStudent dbS.students "24-001" = some ⟨1, "24-001", "Ana Cruz", "BSIT", 0⟩
      from rfl) (by norm_num) rfl]
  rw [update_student_gwa_eval
    (show findStudent ({ dbS with
        grades := dbS.grades ++
          [⟨dbS.nextGradeId, "24-001", "CS 131", "Computer Programming 1", (31/20 : ℚ)⟩],
        nextGradeId := dbS.nextGradeId + 1 } : DB).students "24-001"
        = some ⟨1, "24-001", "Ana Cruz", "BSIT", 0⟩ from rfl)]
  have hcg : computedGwa (dbS.grades ++
      [⟨dbS.nextGradeId, "24-001", "CS 131", "Computer Programming 1", (31/20 : ℚ)⟩])
      "24-001" = 31/20 := by
    rw [computedGwa_of_cons (show gradesOf (dbS.grades ++
      [⟨dbS.nextGradeId, "24-001", "CS 131", "Computer Programming 1", (31/20 : ℚ)⟩]) "24-001"
      = [⟨1, "24-001", "CS 131", "Computer Programming 1", (31/20 : ℚ)⟩] from rfl)]
    rw [show ((List.map Grade.grade
        [(⟨1, "24-001", "CS 131", "Computer Programming 1", (31/20 : ℚ)⟩ : Grade)]).sum /
        (([(⟨1, "24-001", "CS 131", "Computer Programming 1", (31/20 : ℚ)⟩ : Grade)] :
        List Grade).length : ℚ)) = 31/20 from by norm_num]
    rw [if_neg (by norm_num : ¬(31/20 : ℚ) = 0), round2_31_20]
  rw [hcg]
  rfl

/-- Basic facts about the concrete base state `dbS`. -/
lemma WF_dbS : WF dbS :=
  ⟨List.pairwise_singleton _ _, List.Pairwise.nil,
   fun g hg => absurd hg (List.not_mem_nil g), List.Pairwise.nil⟩

lemma WF_dbG : WF dbG :=
  ⟨List.pairwise_singleton _ _, List.pairwise_singleton _ _,
   fun g hg => by
     have hg2 : g ∈ [(⟨1, "24-001", "CS 131", "Computer Programming 1", (1 : ℚ)⟩ : Grade)] := hg
     rw [List.mem_singleton] at hg2
     subst hg2
     exact Nat.lt_succ_self _,
   List.pairwise_singleton _ _⟩

lemma gwaInvariant_dbS : gwaInvariant dbS := by
  intro s hs
  have hs2 : s ∈ [(⟨1, "24-001", "Ana Cruz", "BSIT", (0 : ℚ)⟩ : Student)] := hs
  rw [List.mem_singleton] at hs2
  subst hs2
  left
  exact ⟨rfl, rfl⟩

/-! ### Classifier helpers -/

lemma digitChar_isDigit : ∀ k < 10, (Nat.digitChar k).isDigit = true := by decide

lemma format_grade_shape (v : ℚ) (hv : v ≠ 0) :
    ∃ intPart d1 d2, format_grade v = intPart ++ "." ++ String.mk [d1, d2]
      ∧ d1.isDigit ∧ d2.isDigit := by
  refine ⟨toString ((roundHalfEven (v * 100)).toNat / 100),
    Nat.digitChar ((roundHalfEven (v * 100)).toNat % 100 / 10 % 10),
    Nat.digitChar ((roundHalfEven (v * 100)).toNat % 100 % 10), ?_, ?_, ?_⟩
  · unfold format_grade formatTwoDec twoDigits
    rw [if_neg hv]
  · exact digitChar_isDigit _ (Nat.mod_lt _ (by norm_num))
  · exact digitChar_isDigit _ (Nat.mod_lt _ (by norm_num))

/-- The value `computedGwa` stores for a non-empty grade set is an
integer number of hundredths nearest to 100 times the mean, ties
resolved to the even hundredth (Python's `round`). -/
lemma computedGwa_spec {gs : List Grade} {sc : String}
    (hne : gradesOf gs sc ≠ []) :
    ∃ n : ℤ, computedGwa gs sc = (n : ℚ) / 100 ∧
      |(n : ℚ) - (((gradesOf gs sc).map Grade.grade).sum /
        ((gradesOf gs sc).length : ℚ)) * 100| ≤ 1/2 ∧
      (|(n : ℚ) - (((gradesOf gs sc).map Grade.grade).sum /
        ((gradesOf gs sc).length : ℚ)) * 100| = 1/2 → n % 2 = 0) := by
  cases hg : gradesOf gs sc with
  | nil => exact absurd hg hne
  | cons x xs =>
    rw [computedGwa_of_cons hg]
    by_cases h0 : (((x :: xs).map Grade.grade).sum / ((x :: xs).length : ℚ)) = 0
    · refine ⟨0, ?_, ?_, fun _ => by norm_num⟩
      · rw [if_pos h0]
        norm_num
      · rw [h0]
        norm_num
    · rw [if_neg h0]
      refine ⟨roundHalfEven ((((x :: xs).map Grade.grade).sum /
          ((x :: xs).length : ℚ)) * 100), rfl, ?_, ?_⟩
      · exact roundHalfEven_dist _
      · exact roundHalfEven_tie_even _

lemma setCourse_proj (l : List Student) (sc cc : String) :
    (setCourse l sc cc).map (fun s => (s.id, s.student_code, s.name, s.gwa)) =
      l.map (fun s => (s.id, s.student_code, s.name, s.gwa)) := by
  induction l with
  | nil => rfl
  | cons x xs ih =>
    rw [setCourse, List.map_cons, List.map_cons, ih]
    split_ifs <;> rfl

lemma mem_setCourse_of_ne {l : List Student} {sc cc : String} {s : Student}
    (hs : s ∈ l) (hne : s.student_code ≠ sc) : s ∈ setCourse l sc cc := by
  induction l with
  | nil => cases hs
  | cons x xs ih =>
    rw [setCourse]
    rcases List.mem_cons.1 hs with rfl | hs2
    · rw [if_neg hne]
      exact List.mem_cons_self _ _
    · exact List.mem_cons_of_mem _ (ih hs2)

/-- After a successful `add_grade`, the student table is the old table
with the affected student's gwa overwritten by the value recomputed
from the post-write grade table. -/
lemma add_grade_gwa_written {db : DB} {sc subc subn : String} {v : ℚ} {db' : DB}
    {g : Grade} (hok : add_grade db sc subc subn v = .ok (db', g)) :
    db'.students = setGwa db.students sc (computedGwa db'.grades sc) := by
  obtain ⟨⟨st, hst⟩, _, hcase⟩ := add_grade_ok_inv hok
  rcases hcase with ⟨g0, hgr, hg, hdb⟩ | ⟨hgr, hg, hdb⟩ <;>
  · subst hdb
    rw [update_student_gwa_grades]
    exact update_student_gwa_students_of_some _ sc hst

/-! ### Claim theorems -/

/-- C10: the classifier is total over all rational inputs: every value
that is neither 0 nor 1 and is at most 1.75 — including every negative
value and every value strictly between 0 and 1, which are invalid on
the grade scale — is classified "Very Good" rather than an error or the
not-graded band. -/
theorem C10_classifier_total_below_175 (v : ℚ) (h0 : v ≠ 0) (h1 : v ≠ 1)
    (h175 : v ≤ 1.75) : get_grade_description v = "Very Good" := by
  unfold get_grade_description
  rw [if_neg h0, if_neg h1, if_pos h175]

/-- C10 witness: the invalid values -2 and 1/2 land in the Very Good
band. -/
theorem C10_witness :
    get_grade_description (-2) = "Very Good" ∧
    get_grade_description (1/2) = "Very Good" :=
  ⟨C10_classifier_total_below_175 (-2) (by norm_num) (by norm_num) (by norm_num),
   C10_classifier_total_below_175 (1/2) (by norm_num) (by norm_num) (by norm_num)⟩

/-- C3: over the domain {0} ∪ [1, 5], the classifier maps 0 to the
not-graded band, 1 to Excellent, (1, 1.75] to Very Good, (1.75, 2.5]
to Good, (2.5, 3] to Satisfactory and (3, 5] to Failed (each band's
upper bound inclusive); the display string is "N/A" exactly at 0 and
otherwise an integer part, a point, and exactly two decimal digits;
and the same two functions annotate both individual subject grades
(`get_student_grades`) and the aggregate GWA (`get_gwa_report`). -/
theorem C3_classifier_bands (v : ℚ) (hv : v = 0 ∨ (1 ≤ v ∧ v ≤ 5)) :
    ((get_grade_description v = "Not yet graded" ↔ v = 0) ∧
     (get_grade_description v = "Excellent" ↔ v = 1) ∧
     (get_grade_description v = "Very Good" ↔ (1 < v ∧ v ≤ 1.75)) ∧
     (get_grade_description v = "Good" ↔ (1.75 < v ∧ v ≤ 2.5)) ∧
     (get_grade_description v = "Satisfactory" ↔ (2.5 < v ∧ v ≤ 3)) ∧
     (get_grade_description v = "Failed" ↔ 3 < v)) ∧
    (v = 0 → format_grade v = "N/A") ∧
    (v ≠ 0 → ∃ intPart d1 d2, format_grade v = intPart ++ "." ++ String.mk [d1, d2]
        ∧ d1.isDigit ∧ d2.isDigit) ∧
    (∀ db sc rows, get_student_grades db sc = .ok rows →
      ∀ r ∈ rows, r.description = get_grade_description r.grade ∧
        r.formatted_grade = format_grade r.grade) ∧
    (∀ db, ∀ r ∈ get_gwa_report db, r.description = get_grade_description r.gwa ∧
      r.formatted_gwa = format_grade r.gwa) := by
  refine ⟨?_, ?_, fun hv0 => format_grade_shape v hv0, ?_, ?_⟩
  · rcases hv with rfl | ⟨hv1, hv5⟩
    · have hgd : get_grade_description 0 = "Not yet graded" := by
        unfold get_grade_description
        rw [if_pos rfl]
      rw [hgd]
      refine ⟨⟨fun _ => rfl, fun _ => rfl⟩,
        ⟨fun h => absurd h (by decide), fun h => absurd h (by norm_num)⟩,
        ⟨fun h => absurd h (by decide), fun h => absurd h.1 (by norm_num)⟩,
        ⟨fun h => absurd h (by decide), fun h => absurd h.1 (by norm_num)⟩,
        ⟨fun h => absurd h (by decide), fun h => absurd h.1 (by norm_num)⟩,
        ⟨fun h => absurd h (by decide), fun h => absurd h (by norm_num)⟩⟩
    · have h0 : v ≠ 0 := by
        intro h
        rw [h] at hv1
        norm_num at hv1
      by_cases h1 : v = 1
      · subst h1
        have hgd : get_grade_description 1 = "Excellent" := by
          unfold get_grade_description
          rw [if_neg (by norm_num), if_pos rfl]
        rw [hgd]
        refine ⟨⟨fun h => absurd h (by decide), fun h => absurd h (by norm_num)⟩,
          ⟨fun _ => rfl, fun _ => rfl⟩,
          ⟨fun h => absurd h (by decide), fun h => absurd h.1 (by norm_num)⟩,
          ⟨fun h => absurd h (by decide), fun h => absurd h.1 (by norm_num)⟩,
          ⟨fun h => absurd h (by decide), fun h => absurd h.1 (by norm_num)⟩,
          ⟨fun h => absurd h (by decide), fun h => absurd h (by norm_num)⟩⟩
      · by_cases h175 : v ≤ 1.75
        · have hgd : get_grade_description v = "Very Good" := by
            unfold get_grade_description
            rw [if_neg h0, if_neg h1, if_pos h175]
          rw [hgd]
          have hlt : 1 < v := lt_of_le_of_ne hv1 (Ne.symm h1)
          refine ⟨⟨fun h => absurd h (by decide), fun h => absurd h h0⟩,
            ⟨fun h => absurd h (by decide), fun h => absurd h h1⟩,
            ⟨fun _ => ⟨hlt, h175⟩, fun _ => rfl⟩,
            ⟨fun h => absurd h (by decide), fun h => absurd h.1 (not_lt.2 h175)⟩,
            ⟨fun h => absurd h (by decide), fun h => absurd h.1 (not_lt.2 (by linarith))⟩,
            ⟨fun h => absurd h (by decide), fun h => absurd h (not_lt.2 (by linarith))⟩⟩
        · by_cases h25 : v ≤ 2.5
          · have hgd : get_grade_description v = "Good" := by
              unfold get_grade_description
              rw [if_neg h0, if_neg h1, if_neg h175, if_pos h25]
            rw [hgd]
            have hlt : (1.75 : ℚ) < v := not_le.1 h175
            refine ⟨⟨fun h => absurd h (by decide), fun h => ?_⟩,
              ⟨fun h => absurd h (by decide), fun h => ?_⟩,
              ⟨fun h => absurd h (by decide), fun h => absurd h.2 h175⟩,
              ⟨fun _ => ⟨hlt, h25⟩, fun _ => rfl⟩,
              ⟨fun h => absurd h (by decide), fun h => absurd h.1 (not_lt.2 h25)⟩,
              ⟨fun h => absurd h (by decide), fun h => absurd h (not_lt.2 (by linarith))⟩⟩
            · rw [h] at hlt
              norm_num at hlt
            · rw [h] at hlt
              norm_num at hlt
          · by_cases h3 : v ≤ 3
            · have hgd : get_grade_description v = "Satisfactory" := by
                unfold get_grade_description
                rw [if_neg h0, if_neg h1, if_neg h175, if_neg h25, if_pos h3]
              rw [hgd]
              have hlt : (2.5 : ℚ) < v := not_le.1 h25
              refine ⟨⟨fun h => absurd h (by decide), fun h => ?_⟩,
                ⟨fun h => absurd h (by decide), fun h => ?_⟩,
                ⟨fun h => absurd h (by decide), fun h => absurd h.2 h175⟩,
                ⟨fun h => absurd h (by decide), fun h => absurd h.2 h25⟩,
                ⟨fun _ => ⟨hlt, h3⟩, fun _ => rfl⟩,
                ⟨fun h => absurd h (by decide), fun h => absurd h (not_lt.2 h3)⟩⟩
              · rw [h] at hlt
                norm_num at hlt
              · rw [h] at hlt
                norm_num at hlt
            · have hgd : get_grade_description v = "Failed" := by
                unfold get_grade_description
                rw [if_neg h0, if_neg h1, if_neg h175, if_neg h25, if_neg h3]
              rw [hgd]
              have hlt : (3 : ℚ) < v := not_le.1 h3
              refine ⟨⟨fun h => absurd h (by decide), fun h => ?_⟩,
                ⟨fun h => absurd h (by decide), fun h => ?_⟩,
                ⟨fun h => absurd h (by decide), fun h => absurd h.2 h175⟩,
                ⟨fun h => absurd h (by decide), fun h => absurd h.2 h25⟩,
                ⟨fun h => absurd h (by decide), fun h => absurd h.2 h3⟩,
                ⟨fun _ => hlt, fun _ => rfl⟩⟩
              · rw [h] at hlt
                norm_num at hlt
              · rw [h] at hlt
                norm_num at hlt
  · intro hv0
    unfold format_grade
    rw [if_pos hv0]
  · intro db sc rows hok r hr
    unfold get_student_grades at hok
    cases hst : findStudent db.students sc with
    | none =>
      rw [hst] at hok
      cases hok
    | some st =>
      rw [hst] at hok
      simp only [Except.ok.injEq] at hok
      subst hok
      obtain ⟨g, hg, hgr⟩ := List.mem_map.1 hr
      subst hgr
      exact ⟨rfl, rfl⟩
  · intro db r hr
    unfold get_gwa_report at hr
    obtain ⟨s, hs, hsr⟩ := List.mem_map.1 hr
    subst hsr
    exact ⟨rfl, rfl⟩

/-- C3 witness: the boundary grade 1.75 is Very Good, 0 prints "N/A". -/
theorem C3_witness :
    (get_grade_description (7/4) = "Very Good" ↔ ((1:ℚ) < 7/4 ∧ (7/4:ℚ) ≤ 1.75)) ∧
    format_grade 0 = "N/A" :=
  ⟨(C3_classifier_bands (7/4) (Or.inr ⟨by norm_num, by norm_num⟩)).1.2.2.1,
   (C3_classifier_bands 0 (Or.inl rfl)).2.1 rfl⟩

/-- C4: `upsertGrade` rejects a value outside [1.0, 5.0] with the
InvalidInput error (pydantic 422) regardless of the rest of the
request, rejects an in-range request whose student does not exist with
NotFound (404), accepts every in-range value (including exactly 1.0
and 5.0) for an existing student, and on every rejection the state is
unchanged: no Grade row is written. -/
theorem C4_upsert_validation (db : DB) (sc subc subn : String) (v : ℚ) :
    ((v < 1 ∨ 5 < v) → upsertGrade db sc subc subn v
        = .error ⟨422, "Grade must be between 1.0 and 5.0"⟩) ∧
    (1 ≤ v → v ≤ 5 → findStudent db.students sc = none →
      upsertGrade db sc subc subn v = .error ⟨404, "Student not found"⟩) ∧
    (∀ st, 1 ≤ v → v ≤ 5 → findStudent db.students sc = some st →
      ∃ db' g, upsertGrade db sc subc subn v = .ok (db', g)) ∧
    (∀ e, upsertGrade db sc subc subn v = .error e →
      stateAfter db (upsertGrade db sc subc subn v) = db) := by
  refine ⟨?_, ?_, ?_, ?_⟩
  · intro h
    unfold upsertGrade gradeCreateValidate
    rw [if_pos h]
  · intro h1 h5 hn
    unfold upsertGrade gradeCreateValidate
    rw [if_neg (by push_neg; exact ⟨h1, h5⟩)]
    show add_grade db sc subc subn (round2 v) = _
    unfold add_grade
    rw [hn]
  · intro st h1 h5 hst
    obtain ⟨hb1, hb5⟩ := round2_bounds h1 h5
    unfold upsertGrade gradeCreateValidate
    rw [if_neg (by push_neg; exact ⟨h1, h5⟩)]
    exact add_grade_succeeds subc subn hst hb1 hb5
  · intro e he
    rw [he]
    rfl

/-- C4 witness: 5.1 and 0.99 are rejected as invalid input, an unknown
student gives NotFound, and the boundary values 1.0 and 5.0 are
accepted. -/
theorem C4_witness :
    upsertGrade dbS "24-001" "CS 131" "Computer Programming 1" (51/10)
        = .error ⟨422, "Grade must be between 1.0 and 5.0"⟩ ∧
    upsertGrade dbS "24-001" "CS 131" "Computer Programming 1" (99/100)
        = .error ⟨422, "Grade must be between 1.0 and 5.0"⟩ ∧
    upsertGrade dbS "99-999" "CS 131" "Computer Programming 1" 2
        = .error ⟨404, "Student not found"⟩ ∧
    (∃ db' g, upsertGrade dbS "24-001" "CS 131" "Computer Programming 1" 1
        = .ok (db', g)) ∧
    (∃ db' g, upsertGrade dbS "24-001" "CS 131" "Computer Programming 1" 5
        = .ok (db', g)) :=
  ⟨(C4_upsert_validation dbS "24-001" "CS 131" "Computer Programming 1" (51/10)).1
      (by norm_num),
   (C4_upsert_validation dbS "24-001" "CS 131" "Computer Programming 1" (99/100)).1
      (by norm_num),
   (C4_upsert_validation dbS "99-999" "CS 131" "Computer Programming 1" 2).2.1
      (by norm_num) (by norm_num) rfl,
   (C4_upsert_validation dbS "24-001" "CS 131" "Computer Programming 1" 1).2.2.1
      ⟨1, "24-001", "Ana Cruz", "BSIT", 0⟩ (by norm_num) (by norm_num) rfl,
   (C4_upsert_validation dbS "24-001" "CS 131" "Computer Programming 1" 5).2.2.1
      ⟨1, "24-001", "Ana Cruz", "BSIT", 0⟩ (by norm_num) (by norm_num) rfl⟩

/-- C5: `delete_student` rejects an absent student_code with NotFound
leaving the state unchanged; otherwise it removes every Grade row of
the student together with the Student row (and nothing else), after
which `get_student_grades` on the deleted code answers NotFound —
never any of the deleted student's grades. -/
theorem C5_delete_student_cascades (db : DB) (sc : String) :
    (findStudent db.students sc = none →
      delete_student db sc = .error ⟨404, "Student not found"⟩ ∧
      stateAfterDelete db (delete_student db sc) = db) ∧
    (∀ st db', findStudent db.students sc = some st → delete_student db sc = .ok db' →
      findStudent db'.students sc = none ∧
      gradesOf db'.grades sc = [] ∧
      get_student_grades db' sc = .error ⟨404, "Student not found"⟩ ∧
      db'.grades = removeGradesOf db.grades sc ∧
      (∀ s ∈ db.students, s.student_code ≠ sc → s ∈ db'.students) ∧
      (∀ g2 ∈ db.grades, g2.student_code ≠ sc → g2 ∈ db'.grades)) := by
  constructor
  · intro hn
    have h1 : delete_student db sc = .error ⟨404, "Student not found"⟩ := by
      unfold delete_student
      rw [hn]
    refine ⟨h1, ?_⟩
    rw [h1]
    rfl
  · intro st db' hst hok
    unfold delete_student at hok
    rw [hst] at hok
    simp only [Except.ok.injEq] at hok
    subst hok
    refine ⟨findStudent_removeStudent db.students sc,
      gradesOf_removeGradesOf db.grades sc, ?_, rfl, ?_, ?_⟩
    · unfold get_student_grades
      rw [show findStudent ({ db with
          grades := removeGradesOf db.grades sc,
          students := removeStudent db.students sc } : DB).students sc = none
        from findStudent_removeStudent db.students sc]
    · intro s hs hne
      exact mem_removeStudent.2 ⟨hs, hne⟩
    · intro g2 hg2 hne
      exact mem_removeGradesOf.2 ⟨hg2, hne⟩

/-- C5 witness: deleting the graded student of `dbG` removes the
student and the grade; deleting an unknown code is NotFound. -/
theorem C5_witness :
    (findStudent
      (stateAfterDelete dbG (delete_student dbG "24-001")).students "24-001" = none ∧
     gradesOf (stateAfterDelete dbG (delete_student dbG "24-001")).grades "24-001" = []) ∧
    delete_student dbG "99-999" = .error ⟨404, "Student not found"⟩ := by
  constructor
  · have h := (C5_delete_student_cascades dbG "24-001").2
      ⟨1, "24-001", "Ana Cruz", "BSIT", 1⟩
      { courses := [⟨1, "BSIT", "Bachelor of Science in Information Technology"⟩],
        students := [], grades := [], nextStudentId := 2, nextGradeId := 2 }
      rfl rfl
    exact ⟨h.1, h.2.1⟩
  · exact ((C5_delete_student_cascades dbG "99-999").1 rfl).1

/-- C7: `add_student` rejects a duplicate student_code with the
Conflict error (400 "Student code already exists"), rejects an unknown
course_code with the InvalidReference error (400 "Course not found"),
leaving the state unchanged in both cases, and otherwise inserts a new
Student whose gwa is exactly 0. -/
theorem C7_create_student (db : DB) (sc name cc : String) :
    (∀ st, findStudent db.students sc = some st →
      add_student db sc name cc = .error ⟨400, "Student code already exists"⟩ ∧
      stateAfter db (add_student db sc name cc) = db) ∧
    (findStudent db.students sc = none → findCourse db.courses cc = none →
      add_student db sc name cc = .error ⟨400, "Course not found"⟩ ∧
      stateAfter db (add_student db sc name cc) = db) ∧
    (∀ c, findStudent db.students sc = none → findCourse db.courses cc = some c →
      add_student db sc name cc =
        .ok ({ db with
               students := db.students ++ [⟨db.nextStudentId, sc, name, cc, 0⟩],
               nextStudentId := db.nextStudentId + 1 },
             ⟨db.nextStudentId, sc, name, cc, 0⟩)) := by
  refine ⟨?_, ?_, ?_⟩
  · intro st hst
    have h1 : add_student db sc name cc = .error ⟨400, "Student code already exists"⟩ := by
      unfold add_student
      rw [hst]
    refine ⟨h1, ?_⟩
    rw [h1]
    rfl
  · intro hn hc
    have h1 : add_student db sc name cc = .error ⟨400, "Course not found"⟩ := by
      unfold add_student
      rw [hn, hc]
    refine ⟨h1, ?_⟩
    rw [h1]
    rfl
  · intro c hn hc
    unfold add_student
    rw [hn, hc]

/-- C7 witness: duplicate code 24-001 conflicts, unknown course is an
invalid reference, and a fresh student is inserted with gwa 0. -/
theorem C7_witness :
    add_student dbS "24-001" "Twin" "BSIT"
        = .error ⟨400, "Student code already exists"⟩ ∧
    add_student dbS "24-777" "Bea Reyes" "NOPE"
        = .error ⟨400, "Course not found"⟩ ∧
    add_student dbS "24-777" "Bea Reyes" "BSIT" =
      .ok ({ dbS with
             students := dbS.students ++ [⟨dbS.nextStudentId, "24-777", "Bea Reyes", "BSIT", 0⟩],
             nextStudentId := dbS.nextStudentId + 1 },
           ⟨dbS.nextStudentId, "24-777", "Bea Reyes", "BSIT", 0⟩) :=
  ⟨((C7_create_student dbS "24-001" "Twin" "BSIT").1
      ⟨1, "24-001", "Ana Cruz", "BSIT", 0⟩ rfl).1,
   ((C7_create_student dbS "24-777" "Bea Reyes" "NOPE").2.1 rfl rfl).1,
   (C7_create_student dbS "24-777" "Bea Reyes" "BSIT").2.2
      ⟨1, "BSIT", "Bachelor of Science in Information Technology"⟩ rfl rfl⟩

/-- C8: `update_student` rejects an absent student with NotFound and an
unknown course with the InvalidReference error, leaving the state
unchanged; otherwise it mutates only the student's course reference:
the grade table, the course catalog, the counters, and every student's
id, student_code, name and gwa are unchanged, and untouched students
are preserved as rows. -/
theorem C8_update_course_frame (db : DB) (sc cc : String) :
    (findStudent db.students sc = none →
      update_student db sc cc = .error ⟨404, "Student not found"⟩ ∧
      stateAfter db (update_student db sc cc) = db) ∧
    (∀ st, findStudent db.students sc = some st → findCourse db.courses cc = none →
      update_student db sc cc = .error ⟨400, "Course not found"⟩ ∧
      stateAfter db (update_student db sc cc) = db) ∧
    (∀ st c db' st', findStudent db.students sc = some st →
      findCourse db.courses cc = some c →
      update_student db sc cc = .ok (db', st') →
      db'.grades = db.grades ∧ db'.courses = db.courses ∧
      db'.nextStudentId = db.nextStudentId ∧ db'.nextGradeId = db.nextGradeId ∧
      st' = { st with course_code := cc } ∧
      st'.student_code = st.student_code ∧ st'.name = st.name ∧
      st'.gwa = st.gwa ∧ st'.id = st.id ∧ st'.course_code = cc ∧
      db'.students.map (fun s => (s.id, s.student_code, s.name, s.gwa)) =
        db.students.map (fun s => (s.id, s.student_code, s.name, s.gwa)) ∧
      (∀ s ∈ db.students, s.student_code ≠ sc → s ∈ db'.students)) := by
  refine ⟨?_, ?_, ?_⟩
  · intro hn
    have h1 : update_student db sc cc = .error ⟨404, "Student not found"⟩ := by
      unfold update_student
      rw [hn]
    refine ⟨h1, ?_⟩
    rw [h1]
    rfl
  · intro st hst hc
    have h1 : update_student db sc cc = .error ⟨400, "Course not found"⟩ := by
      unfold update_student
      rw [hst, hc]
    refine ⟨h1, ?_⟩
    rw [h1]
    rfl
  · intro st c db' st' hst hc hok
    unfold update_student at hok
    rw [hst, hc] at hok
    simp only [Except.ok.injEq, Prod.mk.injEq] at hok
    obtain ⟨hdb, hst'⟩ := hok
    subst hdb
    subst hst'
    exact ⟨rfl, rfl, rfl, rfl, rfl, rfl, rfl, rfl, rfl, rfl,
      setCourse_proj db.students sc cc,
      fun s hs hne => mem_setCourse_of_ne hs hne⟩

/-- C8 witness: updating the course of student 24-001 leaves grades,
gwa, name and code unchanged. -/
theorem C8_witness :
    (stateAfter dbS (update_student dbS "24-001" "BSIT")).grades = dbS.grades ∧
    (stateAfter dbS (update_student dbS "24-001" "BSIT")).students.map
        (fun s => (s.id, s.student_code, s.name, s.gwa)) =
      dbS.students.map (fun s => (s.id, s.student_code, s.name, s.gwa)) := by
  have h := (C8_update_course_frame dbS "24-001" "BSIT").2.2
    ⟨1, "24-001", "Ana Cruz", "BSIT", 0⟩
    ⟨1, "BSIT", "Bachelor of Science in Information Technology"⟩
    { dbS with students := setCourse dbS.students "24-001" "BSIT" }
    ⟨1, "24-001", "Ana Cruz", "BSIT", 0⟩
    rfl rfl rfl
  exact ⟨h.1, h.2.2.2.2.2.2.2.2.2.2.1⟩

/-- C1: after every successful grade upsert (the one grade-mutating
operation), the derived-state invariant holds for every student: the
stored gwa is the 2-decimal rounding of the mean of that student's
grades, or exactly 0 when the student has no grades — the synchronous
`update_student_gwa` call leaves no student's gwa stale when the
mutation returns. -/
theorem C1_gwa_invariant_preserved (db : DB) (sc subc subn : String) (v : ℚ)
    (db' : DB) (g : Grade) (hwf : WF db) (hinv : gwaInvariant db)
    (hok : upsertGrade db sc subc subn v = .ok (db', g)) : gwaInvariant db' := by
  unfold upsertGrade gradeCreateValidate at hok
  split_ifs at hok with hr
  have hok2 : add_grade db sc subc subn (round2 v) = Except.ok (db', g) := hok
  exact gwaInvariant_add_grade hwf hinv hok2

/-- C1 witness: upserting grade 1.5 into the invariant-satisfying state
`dbS` yields a state that still satisfies the gwa invariant. -/
theorem C1_witness : gwaInvariant dbS1 :=
  C1_gwa_invariant_preserved dbS "24-001" "CS 131" "Computer Programming 1" (3/2)
    dbS1 ⟨1, "24-001", "CS 131", "Computer Programming 1", 3/2⟩
    WF_dbS gwaInvariant_dbS upsertGrade_dbS_eval

/-- C2: the grade write is an upsert keyed by (student_code,
subject_code): over any sequence of accepted calls for one pair the
final stored value is the last call's value and exactly one row exists
for the pair; a single accepted call overwrites the existing row's
value and subject_name in place (same row id) or inserts when absent;
and repeating an identical call leaves the state and response
unchanged. -/
theorem C2_upsert_last_write_wins (db : DB) (sc subc subn : String) (st : Student)
    (hwf : WF db) (hst : findStudent db.students sc = some st) :
    (∀ vs w, (∀ v ∈ vs, 1 ≤ v ∧ v ≤ 5) → vs.getLast? = some w →
      (pairRows (applyGradeSeq db sc subc subn vs).grades sc subc).map Grade.grade
        = [w]) ∧
    (∀ v db' g, add_grade db sc subc subn v = .ok (db', g) →
      (pairRows db'.grades sc subc).map Grade.grade = [v] ∧
      g.grade = v ∧ g.subject_name = subn ∧
      (∀ g0, findGradeRow db.grades sc subc = some g0 → g.id = g0.id) ∧
      add_grade db' sc subc subn v = .ok (db', g)) := by
  constructor
  · intro vs w hvs hlast
    exact applyGradeSeq_last hwf hst hvs hlast
  · intro v db' g hok
    obtain ⟨hpr, hgsc, hgsub, hggrade, hgsubn⟩ := add_grade_pairRows hwf hok
    refine ⟨?_, hggrade, hgsubn, ?_, add_grade_idem hwf hok⟩
    · rw [hpr, List.map_cons, List.map_nil, hggrade]
    · intro g0 hg0
      obtain ⟨_, _, hcase⟩ := add_grade_ok_inv hok
      rcases hcase with ⟨g0', hgr', hg, _⟩ | ⟨hgr', _, _⟩
      · rw [hgr'] at hg0
        have heq : g0' = g0 := Option.some.inj hg0
        subst heq
        rw [hg]
      · rw [hgr'] at hg0
        cases hg0

/-- C2 witness: after writing 1.5 then 2.0 for the same pair, the
single stored row holds 2.0. -/
theorem C2_witness :
    (pairRows (applyGradeSeq dbS "24-001" "CS 131" "Computer Programming 1"
      [3/2, 2]).grades "24-001" "CS 131").map Grade.grade = [2] := by
  refine (C2_upsert_last_write_wins dbS "24-001" "CS 131" "Computer Programming 1"
    ⟨1, "24-001", "Ana Cruz", "BSIT", 0⟩ WF_dbS rfl).1 [3/2, 2] 2 ?_ rfl
  intro v hv
  rcases List.mem_cons.1 hv with rfl | hv2
  · exact ⟨by norm_num, by norm_num⟩
  rcases List.mem_cons.1 hv2 with rfl | hv3
  · exact ⟨by norm_num, by norm_num⟩
  · cases hv3

/-- C6 counterexample: the claim prescribes half-up rounding, but the
code uses Python's `round` (half-to-even). Upserting 1.25 next to an
existing 1.0 makes the mean exactly 1.125; the code stores 1.12 while
half-up rounding of the mean gives 1.13. -/
theorem C6_counterexample :
    add_grade dbG "24-001" "MATH 111" "Mathematics in the Modern World" (5/4) =
      .ok (dbG1, ⟨2, "24-001", "MATH 111", "Mathematics in the Modern World", 5/4⟩) ∧
    ((dbG1.grades.map Grade.grade).sum / (dbG1.grades.length : ℚ)) = 9/8 ∧
    (findStudent dbG1.students "24-001").map Student.gwa = some (28/25) ∧
    roundHalfUp2 (9/8) = 113/100 ∧
    (28/25 : ℚ) ≠ 113/100 := by
  refine ⟨add_grade_dbG_eval, by norm_num [dbG1], rfl, ?_, by norm_num⟩
  unfold roundHalfUp2
  rw [show ⌊(9/8 : ℚ) * 100 + 1/2⌋ = 113 from
    Int.floor_eq_iff.2 ⟨by norm_num, by norm_num⟩]
  norm_num

/-- C6 (amended): `update_student_gwa` rounds the mean to 2 decimal
places with round-half-to-even (Python's `round`), not half-up: for a
non-empty grade set the stored gwa is n/100 for an integer n within
half a hundredth of 100 times the mean, and an exact half rounds to
the even n. -/
theorem C6_amended_round_half_even (db : DB) (sc subc subn : String) (v : ℚ)
    (db' : DB) (g : Grade) (st' : Student)
    (hok : add_grade db sc subc subn v = .ok (db', g))
    (hst' : findStudent db'.students sc = some st')
    (hne : gradesOf db'.grades sc ≠ []) :
    ∃ n : ℤ, st'.gwa = (n : ℚ) / 100 ∧
      |(n : ℚ) - (((gradesOf db'.grades sc).map Grade.grade).sum /
        ((gradesOf db'.grades sc).length : ℚ)) * 100| ≤ 1/2 ∧
      (|(n : ℚ) - (((gradesOf db'.grades sc).map Grade.grade).sum /
        ((gradesOf db'.grades sc).length : ℚ)) * 100| = 1/2 → n % 2 = 0) := by
  obtain ⟨⟨st, hst⟩, _, _⟩ := add_grade_ok_inv hok
  have hstu := add_grade_gwa_written hok
  have hst2 : findStudent db'.students sc
      = some ({ st with gwa := computedGwa db'.grades sc }) := by
    rw [hstu, findStudent_setGwa, hst]
    show some (if st.student_code = sc
      then { st with gwa := computedGwa db'.grades sc } else st) = _
    rw [if_pos (findStudent_some hst).2]
  have hgwa : st'.gwa = computedGwa db'.grades sc := by
    rw [hst2] at hst'
    have heq := Option.some.inj hst'
    rw [← heq]
  obtain ⟨n, hn, hb, ht⟩ := computedGwa_spec hne
  exact ⟨n, by rw [hgwa, hn], hb, ht⟩

/-- C6 (amended) witness: in the 1.0/1.25 scenario the stored gwa
112/100 is the even-hundredth rounding of the mean 1.125. -/
theorem C6_amended_witness :
    ∃ n : ℤ, (⟨1, "24-001", "Ana Cruz", "BSIT", 28/25⟩ : Student).gwa = (n : ℚ) / 100 ∧
      |(n : ℚ) - (((gradesOf dbG1.grades "24-001").map Grade.grade).sum /
        ((gradesOf dbG1.grades "24-001").length : ℚ)) * 100| ≤ 1/2 ∧
      (|(n : ℚ) - (((gradesOf dbG1.grades "24-001").map Grade.grade).sum /
        ((gradesOf dbG1.grades "24-001").length : ℚ)) * 100| = 1/2 → n % 2 = 0) :=
  C6_amended_round_half_even dbG "24-001" "MATH 111" "Mathematics in the Modern World"
    (5/4) dbG1 ⟨2, "24-001", "MATH 111", "Mathematics in the Modern World", 5/4⟩
    ⟨1, "24-001", "Ana Cruz", "BSIT", 28/25⟩ add_grade_dbG_eval rfl
    (by
      rw [show gradesOf dbG1.grades "24-001" =
          [⟨1, "24-001", "CS 131", "Computer Programming 1", (1:ℚ)⟩,
           ⟨2, "24-001", "MATH 111", "Mathematics in the Modern World", (5/4:ℚ)⟩] from rfl]
      exact List.cons_ne_nil _ _)

/-- C9 counterexample: the stored Grade value is not always the
submitted value: submitting 1.554 stores 1.55, because the
`GradeCreate` validator rounds to 2 decimal places at input time. -/
theorem C9_counterexample :
    Except.map (fun p => p.2.grade)
        (upsertGrade dbS "24-001" "CS 131" "Computer Programming 1" (1554/1000))
      = .ok (31/20) ∧ (31/20 : ℚ) ≠ 1554/1000 := by
  constructor
  · rw [upsertGrade_dbS_1554_eval]
    rfl
  · norm_num

/-- C9 (amended): for every accepted upsert, the stored Grade value is
the submitted value rounded to 2 decimal places by the input
validator; a value already at 2 decimals is stored as given. -/
theorem C9_amended_input_rounding (db : DB) (sc subc subn : String) (v : ℚ)
    (db' : DB) (g : Grade)
    (hok : upsertGrade db sc subc subn v = .ok (db', g)) : g.grade = round2 v := by
  unfold upsertGrade gradeCreateValidate at hok
  split_ifs at hok with hr
  have hok2 : add_grade db sc subc subn (round2 v) = Except.ok (db', g) := hok
  obtain ⟨_, _, hcase⟩ := add_grade_ok_inv hok2
  rcases hcase with ⟨g0, _, hg, _⟩ | ⟨_, hg, _⟩ <;> rw [hg]

/-- C9 (amended) witness: the row stored for the submitted value 1.554
carries exactly round2 of 1.554. -/
theorem C9_amended_witness :
    (⟨1, "24-001", "CS 131", "Computer Programming 1", 31/20⟩ : Grade).grade
      = round2 (1554/1000) :=
  C9_amended_input_rounding dbS "24-001" "CS 131" "Computer Programming 1" (1554/1000)
    dbS2 ⟨1, "24-001", "CS 131", "Computer Programming 1", 31/20⟩
    upsertGrade_dbS_1554_eval

end EduCore
